import Mathlib

set_option maxRecDepth 100000

/-!
Verification of the journal-recommender normalization and synchronization
pipeline: a shallow embedding of the Python scripts under `scripts/`
(field parsers, scope extractor, record synchronizers, exporters), with
theorems settling the specification claims about them.

Conventions of the embedding:
  * Python strings are modelled as `String` / `List Char`; machine floats
    are modelled as `Rat` (the scripts only parse and move decimal
    literals, never compute with them, so exact rationals are faithful);
  * fallible Python calls (`int(..)`, `float(..)`, SQL statements) return
    `Except String _`, where `.error` models a raised exception;
  * `None` is modelled as `Option.none`.
-/

/-- ASCII whitespace recognised by Python `str.strip` / `\s` (the scripts
only process ASCII page text; non-ASCII whitespace is outside the modelled
subset). -/
def isPyWs (c : Char) : Bool :=
  c == ' ' || c == '\t' || c == '\n' || c == '\r' || c == '\x0b' || c == '\x0c'

/-- Python `str.strip()` on a character list. -/
def pyStrip (l : List Char) : List Char :=
  ((l.dropWhile isPyWs).reverse.dropWhile isPyWs).reverse

/-- Numeric value of a list of decimal digit characters. -/
def digitsVal (l : List Char) : Nat :=
  l.foldl (fun a c => a * 10 + (c.toNat - 48)) 0

/-- An optional leading sign: returns the negative flag and the rest. -/
def splitSign (t : List Char) : Bool × List Char :=
  match t with
  | [] => (false, [])
  | c :: r => if c == '+' then (false, r) else if c == '-' then (true, r) else (false, c :: r)

/-- Model of CPython `int(s)` for an ASCII decimal string: optional
surrounding whitespace, optional sign, one or more digits.  `.error`
models the `ValueError` raised on any other input.  (Exotic accepted
forms — underscores between digits, non-ASCII digits — are outside the
modelled subset; none of the repository's inputs use them.) -/
def pyInt (l : List Char) : Except String Int :=
  let sd := splitSign (pyStrip l)
  if !sd.2.isEmpty && sd.2.all Char.isDigit then
    .ok (if sd.1 then -(digitsVal sd.2 : Int) else (digitsVal sd.2 : Int))
  else
    .error "ValueError: invalid literal for int() with base 10"

/-- Model of CPython `float(s)` for a fixed-point ASCII decimal string:
optional surrounding whitespace, optional sign, then `digits`,
`digits.digits`, `digits.` or `.digits`.  `.error` models the
`ValueError` raised on any other input (exponent, `inf`/`nan` and
underscore forms are outside the modelled subset; none of the
repository's inputs use them).  In particular a `','` fractional
separator is a `ValueError`, exactly as in CPython. -/
def pyFloat (l : List Char) : Except String Rat :=
  match (splitSign (pyStrip l)).2.dropWhile Char.isDigit with
  | [] =>
    if ((splitSign (pyStrip l)).2.takeWhile Char.isDigit).isEmpty then
      .error "ValueError: could not convert string to float"
    else
      .ok (if (splitSign (pyStrip l)).1 then
            -(digitsVal ((splitSign (pyStrip l)).2.takeWhile Char.isDigit) : Rat)
          else (digitsVal ((splitSign (pyStrip l)).2.takeWhile Char.isDigit) : Rat))
  | c :: fr =>
    if c == '.' then
      if fr.all Char.isDigit &&
          !(((splitSign (pyStrip l)).2.takeWhile Char.isDigit).isEmpty && fr.isEmpty) then
        .ok (if (splitSign (pyStrip l)).1 then
              -((digitsVal ((splitSign (pyStrip l)).2.takeWhile Char.isDigit) : Rat) +
                (digitsVal fr : Rat) / ((10 : Rat) ^ fr.length))
            else (digitsVal ((splitSign (pyStrip l)).2.takeWhile Char.isDigit) : Rat) +
              (digitsVal fr : Rat) / ((10 : Rat) ^ fr.length))
      else .error "ValueError: could not convert string to float"
    else .error "ValueError: could not convert string to float"

/-- `safe_float` from `scripts/import_asm_journals.py` (lines 66-73):
`if not val: return None` (the empty string is falsy), then
`try: return float(val) except (ValueError, TypeError): return None`. -/
def safe_float (val : String) : Option Rat :=
  if val = "" then none
  else
    match pyFloat val.toList with
    | .ok q => some q
    | .error _ => none

/-- `safe_float` lifted to an optional field (`j.get('sjr')` may be
absent, i.e. `None`, which is falsy). -/
def safe_floatO (val : Option String) : Option Rat :=
  match val with
  | none => none
  | some s => safe_float s

/-- `safe_int` from `scripts/import_asm_journals.py` (lines 76-83):
`if not val: return None`, then `try: return int(val) except: return None`. -/
def safe_int (val : String) : Option Int :=
  if val = "" then none
  else
    match pyInt val.toList with
    | .ok n => some n
    | .error _ => none

/-- `safe_int` lifted to an optional field. -/
def safe_intO (val : Option String) : Option Int :=
  match val with
  | none => none
  | some s => safe_int s

/-- The inline integer conversion `int(row.get('H index', 0) or 0)` used
for the count fields in `parse_csv` of
`scripts/data-processing/scrape_bmj_scopes.py` (lines 41-46): an empty
CSV cell is coalesced to `0` by `or 0`; a non-empty non-numeric cell
raises an uncaught `ValueError` (modelled by `.error`). -/
def csvIntOr0 (s : String) : Except String Int :=
  if s = "" then .ok 0 else pyInt s.toList

/-- The inline integer conversion `int(row.get('Rank', 0))` used for the
rank field in `parse_csv` of `scripts/data-processing/scrape_bmj_scopes.py`
(line 32): no `or 0` coalescing and no `try`, so an empty or non-numeric
cell raises an uncaught `ValueError` (modelled by `.error`). -/
def csvRankField (s : String) : Except String Int :=
  pyInt s.toList

/-- Python `s.split(sep)` for a one-character separator: splits on every
occurrence, keeping empty segments. -/
def splitOnChar (sep : Char) : List Char → List (List Char)
  | [] => [[]]
  | c :: t =>
    let r := splitOnChar sep t
    if c == sep then [] :: r
    else
      match r with
      | h :: t2 => (c :: h) :: t2
      | [] => [[c]]

/-- `parse_issn` from `scripts/import_asm_journals.py` (lines 24-30):
split on `','`, strip each piece, drop empties. -/
def parse_issn (s : String) : List String :=
  if s = "" then []
  else (((splitOnChar ',' s.toList).map (fun l => String.mk (pyStrip l))).filter (fun i => i ≠ ""))

/-- `parse_areas` from `scripts/import_asm_journals.py` (lines 57-63):
split on `';'`, strip each piece, drop empties. -/
def parse_areas (s : String) : List String :=
  if s = "" then []
  else (((splitOnChar ';' s.toList).map (fun l => String.mk (pyStrip l))).filter (fun a => a ≠ ""))

/-- Recognise the anchored pattern of
`re.match(r'^(.+?)\s*\(([Q][1-4])\)$', part)` used by `parse_categories`
in `scripts/import_asm_journals.py` (line 46): the entry must end with a
literal `(Qd)` (d in 1..4) and have at least one character before it
(the lazy `(.+?)` group); the captured name is everything before the
trailing `(Qd)`, with the `\s*` run excluded (equivalently, stripped). -/
def matchTrailingQuartile (l : List Char) : Option (List Char × List Char) :=
  let n := l.length
  if n ≥ 5 then
    match l.drop (n - 4) with
    | ['(', 'Q', d, ')'] =>
      if d == '1' || d == '2' || d == '3' || d == '4' then
        some (l.take (n - 4), ['Q', d])
      else none
    | _ => none
  else none

/-- `parse_categories` from `scripts/import_asm_journals.py` (lines
33-54): split on `';'`, strip each part, skip empty parts; a part whose
trailing `(Qd)` matches the anchored regex yields
`(name.strip(), quartile)`, any other part yields `(part, None)`. -/
def parse_categories (s : String) : List (String × Option String) :=
  if s = "" then []
  else
    (splitOnChar ';' s.toList).filterMap (fun raw =>
      let part := pyStrip raw
      if part.isEmpty then none
      else
        match matchTrailingQuartile part with
        | some (namePart, q) => some (String.mk (pyStrip namePart), some (String.mk q))
        | none => some (String.mk part, none))

/-- Tests whether the list starts with the literal `(Qd)` for d in 1..4,
returning the digit. -/
def quartileHead (l : List Char) : Option Char :=
  match l with
  | '(' :: 'Q' :: d :: ')' :: _ =>
    if d == '1' || d == '2' || d == '3' || d == '4' then some d else none
  | _ => none

/-- First position `p ≥ i` (counting from the given start index) at which
the literal `(Qd)` occurs in the list, together with the digit. -/
def findParenQuartile : Nat → List Char → Option (Nat × Char)
  | _, [] => none
  | i, l@(_ :: t) =>
    match quartileHead l with
    | some d => some (i, d)
    | none => findParenQuartile (i + 1) t

/-- Recognise the unanchored pattern of
`re.match(r'(.+?)\s*\((Q[1-4])\)', cat)` used by `clean_journal_data` in
`scripts/clean_scope_data.py` (line 78): the lazy group needs at least
one character, so the match takes the first `(Qd)` occurrence at a
position `≥ 1` (no `$` anchor — a quartile in the middle of the name
matches).  The captured name is everything before that occurrence with
the `\s*` run excluded; the caller strips it, which gives the same
result as stripping the full prefix. -/
def cleanCategoryEntry (cat : List Char) : Option (String × Option String) :=
  match cat with
  | [] => none
  | _ :: t =>
    match findParenQuartile 1 t with
    | some (p, d) => some (String.mk (pyStrip (cat.take p)), some (String.mk ['Q', d]))
    | none => some (String.mk cat, none)

/-- The category-parsing loop of `clean_journal_data` in
`scripts/clean_scope_data.py` (lines 74-86): split on `';'`, strip, match
the unanchored regex, keep `(name, quartile)` on a match, `(cat, None)`
for a non-empty non-matching entry, skip empty entries. -/
def clean_parse_categories (s : String) : List (String × Option String) :=
  (splitOnChar ';' s.toList).filterMap (fun raw => cleanCategoryEntry (pyStrip raw))

/-- First index at which `pat` occurs as a contiguous sublist of the
list, scanning left to right — Python `hay.index(pat)` / `pat in hay`. -/
def firstIdx (pat : List Char) : List Char → Option Nat
  | [] => if pat.isPrefixOf [] then some 0 else none
  | c :: t =>
    if pat.isPrefixOf (c :: t) then some 0
    else (firstIdx pat t).map (· + 1)

/-- Python `pat in hay` for strings. -/
def strContains (hay pat : List Char) : Bool :=
  (firstIdx pat hay).isSome

/-- One step of the trailing-navigation truncation loop in
`extract_scope_description` (`scripts/clean_scope_data.py` lines 34-36):
`if end in text: text = text[:text.index(end)]`. -/
def truncAtMarker (text pat : List Char) : List Char :=
  match firstIdx pat text with
  | some i => text.take i
  | none => text

/-- Python `re.sub(r'\s+', ' ', text)`: collapse every whitespace run to
a single space. -/
def collapseWs (l : List Char) : List Char :=
  l.foldr (fun c acc =>
    if isPyWs c then
      match acc with
      | ' ' :: _ => acc
      | _ => ' ' :: acc
    else c :: acc) []

/-- The marker list of `extract_scope_description`
(`scripts/clean_scope_data.py` line 20) — note the source order:
`['Scope', 'Aims and Scope', 'About']`. -/
def scope_markers : List String :=
  ["Scope", "Aims and Scope", "About"]

/-- The trailing-navigation marker list of `extract_scope_description`
(`scripts/clean_scope_data.py` lines 32-33). -/
def end_markers : List String :=
  ["Join the conversation", "Enter Journal", "Related journals",
   "Homepage", "How to publish", "Contact", "Quartiles"]

/-- One marker attempt of `extract_scope_description`
(`scripts/clean_scope_data.py` lines 23-42): if the marker occurs, take
the text after its first occurrence, strip it, truncate at each trailing
navigation marker in turn, collapse whitespace and strip; the attempt
succeeds only if the cleaned text is longer than 50 characters. -/
def markerAttempt (raw : List Char) (marker : String) : Option (List Char) :=
  match firstIdx marker.toList raw with
  | none => none
  | some i =>
    let text := pyStrip (raw.drop (i + marker.length))
    let text := (end_markers.map String.toList).foldl truncAtMarker text
    let text := pyStrip (collapseWs text)
    if text.length > 50 then some text else none

/-- First `some` in a list of options (the `for marker in scope_markers`
loop returns at the first marker whose attempt succeeds). -/
def firstSome : List (Option α) → Option α
  | [] => none
  | some x :: _ => some x
  | none :: t => firstSome t

/-- State of the sentence-splitting scan modelling
`re.split(r'(?<=[.!?])\s+', raw_scope)`. -/
structure SentSplitState where
  done : List (List Char)
  cur : List Char
  gap : Bool
deriving Repr

/-- One character step of the sentence splitter: a whitespace character
that follows `.`, `!` or `?` ends the current sentence and opens a
whitespace gap; the gap swallows the whole `\s+` run. -/
def sentStep (st : SentSplitState) (c : Char) : SentSplitState :=
  if st.gap then
    if isPyWs c then st
    else { done := st.done, cur := [c], gap := false }
  else
    if isPyWs c && (match st.cur with
                    | p :: _ => p == '.' || p == '!' || p == '?'
                    | [] => false) then
      { done := st.done ++ [st.cur.reverse], cur := [], gap := true }
    else { st with cur := c :: st.cur }

/-- Python `re.split(r'(?<=[.!?])\s+', raw)`: like the regex split, the
result always has one more part than there are separator matches (a
trailing separator yields a trailing empty part). -/
def splitSentences (l : List Char) : List (List Char) :=
  let st := l.foldl sentStep ⟨[], [], false⟩
  st.done ++ [st.cur.reverse]

/-- Navigation/metadata tokens that discard a sentence in the fallback of
`extract_scope_description` (`scripts/clean_scope_data.py` line 51). -/
def skip_tokens : List String :=
  ["click", "login", "subscribe", "issn", "homepage"]

/-- Descriptive-content tokens that keep a sentence in the fallback of
`extract_scope_description` (`scripts/clean_scope_data.py` line 54). -/
def descriptive_tokens : List String :=
  ["publishes", "journal", "research", "scope", "covers", "dedicated", "focuses"]

/-- The sentence-filter fallback of `extract_scope_description`
(`scripts/clean_scope_data.py` lines 44-58): split into sentences, strip
each, drop those containing a skip token (case-insensitive), keep those
containing a descriptive token (case-insensitive). -/
def fallbackSentences (raw : List Char) : List (List Char) :=
  (splitSentences raw).filterMap (fun sent =>
    let s := pyStrip sent
    let lower := s.map Char.toLower
    if skip_tokens.any (fun tok => strContains lower tok.toList) then none
    else if descriptive_tokens.any (fun tok => strContains lower tok.toList) then some s
    else none)

/-- `extract_scope_description` from `scripts/clean_scope_data.py`
(lines 14-60).  The `title` parameter is unused in the source body too. -/
def extract_scope_description (raw_scope : String) (_title : String) : String :=
  if raw_scope = "" then ""
  else
    let raw := raw_scope.toList
    match firstSome (scope_markers.map (markerAttempt raw)) with
    | some t => String.mk t
    | none =>
      let descriptive := fallbackSentences raw
      if descriptive.isEmpty then ""
      else String.mk (List.intercalate [' '] (descriptive.take 5))

/-- The marker phase as the claim (and spec §4.2) words it: the same
per-marker attempt, but with the markers tried in the priority order
`"Aims and Scope"`, `"Scope"`, `"About"`. -/
def claimOrderMarkerPhase (raw : List Char) : Option (List Char) :=
  firstSome (["Aims and Scope", "Scope", "About"].map (markerAttempt raw))

/-! ## Generic relational-table operations

A table with a uniqueness constraint is modelled as a list of rows.
`upsertKV` models `INSERT .. ON CONFLICT (key) DO UPDATE SET payload`,
`insertAbs` models `INSERT .. ON CONFLICT DO NOTHING` for a row that is
itself the constrained key. -/

/-- Whether some row of the table has the given key. -/
def containsKey [DecidableEq κ] (t : List (κ × α)) (k : κ) : Bool :=
  t.any (fun e => e.1 = k)

/-- `INSERT .. ON CONFLICT (key) DO UPDATE SET value`: replace the
payload of the existing row with the key, else append a fresh row. -/
def upsertKV [DecidableEq κ] (t : List (κ × α)) (k : κ) (v : α) : List (κ × α) :=
  if containsKey t k then t.map (fun e => if e.1 = k then (k, v) else e)
  else t ++ [(k, v)]

/-- `INSERT .. ON CONFLICT DO NOTHING` for a whole-row key. -/
def insertAbs [DecidableEq β] (t : List β) (x : β) : List β :=
  if x ∈ t then t else t ++ [x]

/-- Fold a batch of keyed writes over a table. -/
def foldUpsert [DecidableEq κ] (t : List (κ × α)) (L : List (κ × α)) : List (κ × α) :=
  L.foldl (fun t e => upsertKV t e.1 e.2) t

/-- Fold a batch of insert-if-absent writes over a table. -/
def foldInsertAbs [DecidableEq β] (t : List β) (L : List β) : List β :=
  L.foldl insertAbs t

/-- The net effect of a write batch on a single row: each write with a
matching key overwrites the payload. -/
def applyWrites [DecidableEq κ] (L : List (κ × α)) (e : κ × α) : κ × α :=
  L.foldl (fun e x => if x.1 = e.1 then (e.1, x.2) else e) e

theorem containsKey_iff [DecidableEq κ] {t : List (κ × α)} {k : κ} :
    containsKey t k = true ↔ ∃ e ∈ t, e.1 = k := by
  simp [containsKey]

theorem containsKey_false [DecidableEq κ] {t : List (κ × α)} {k : κ}
    (h : containsKey t k = false) : ∀ e ∈ t, e.1 ≠ k := by
  intro e he hek
  have hc : containsKey t k = true := containsKey_iff.mpr ⟨e, he, hek⟩
  rw [hc] at h
  exact absurd h (by simp)

theorem mem_upsertKV [DecidableEq κ] {t : List (κ × α)} {k : κ} {v : α} {e : κ × α}
    (h : e ∈ upsertKV t k v) : e = (k, v) ∨ (e ∈ t ∧ e.1 ≠ k) := by
  unfold upsertKV at h
  by_cases hc : containsKey t k = true
  · rw [if_pos hc] at h
    obtain ⟨a, ha, hae⟩ := List.mem_map.mp h
    by_cases hk : a.1 = k
    · rw [if_pos hk] at hae
      exact Or.inl hae.symm
    · rw [if_neg hk] at hae
      exact Or.inr (hae ▸ ⟨ha, hk⟩)
  · rw [if_neg hc] at h
    rcases List.mem_append.mp h with h1 | h1
    · exact Or.inr ⟨h1, containsKey_false (Bool.not_eq_true _ ▸ hc) e h1⟩
    · exact Or.inl (List.mem_singleton.mp h1)

theorem containsKey_upsertKV_self [DecidableEq κ] (t : List (κ × α)) (k : κ) (v : α) :
    containsKey (upsertKV t k v) k = true := by
  unfold upsertKV
  by_cases hc : containsKey t k = true
  · rw [if_pos hc]
    obtain ⟨e, he, hek⟩ := containsKey_iff.mp hc
    refine containsKey_iff.mpr ⟨(k, v), ?_, rfl⟩
    exact List.mem_map.mpr ⟨e, he, by rw [if_pos hek]⟩
  · rw [if_neg hc]
    exact containsKey_iff.mpr ⟨(k, v), by simp, rfl⟩

theorem containsKey_upsertKV_mono [DecidableEq κ] {t : List (κ × α)} {a : κ} (k : κ) (v : α)
    (h : containsKey t a = true) : containsKey (upsertKV t k v) a = true := by
  obtain ⟨e, he, hea⟩ := containsKey_iff.mp h
  unfold upsertKV
  by_cases hc : containsKey t k = true
  · rw [if_pos hc]
    by_cases hek : e.1 = k
    · exact containsKey_iff.mpr ⟨(k, v), List.mem_map.mpr ⟨e, he, by rw [if_pos hek]⟩, by
        simpa [hek] using hea⟩
    · exact containsKey_iff.mpr ⟨e, List.mem_map.mpr ⟨e, he, by rw [if_neg hek]⟩, hea⟩
  · rw [if_neg hc]
    exact containsKey_iff.mpr ⟨e, List.mem_append_left _ he, hea⟩

theorem keys_upsertKV_of_contains [DecidableEq κ] {t : List (κ × α)} {k : κ} (v : α)
    (hc : containsKey t k = true) :
    (upsertKV t k v).map Prod.fst = t.map Prod.fst := by
  unfold upsertKV
  rw [if_pos hc, List.map_map]
  refine List.map_congr_left ?_
  intro e _
  by_cases hek : e.1 = k
  · simp [hek]
  · simp [hek]

theorem keys_upsertKV_of_not [DecidableEq κ] {t : List (κ × α)} {k : κ} (v : α)
    (hc : ¬containsKey t k = true) :
    (upsertKV t k v).map Prod.fst = t.map Prod.fst ++ [k] := by
  unfold upsertKV
  rw [if_neg hc]
  simp

theorem nodup_keys_upsertKV [DecidableEq κ] {t : List (κ × α)} (k : κ) (v : α)
    (h : (t.map Prod.fst).Nodup) : ((upsertKV t k v).map Prod.fst).Nodup := by
  by_cases hc : containsKey t k = true
  · rw [keys_upsertKV_of_contains v hc]
    exact h
  · rw [keys_upsertKV_of_not v hc]
    have hk : k ∉ t.map Prod.fst := by
      intro hmem
      obtain ⟨e, he, hek⟩ := List.mem_map.mp hmem
      exact hc (containsKey_iff.mpr ⟨e, he, hek⟩)
    simp [List.nodup_append, h, hk]

theorem upsertKV_of_contains [DecidableEq κ] {t : List (κ × α)} {k : κ} (v : α)
    (hc : containsKey t k = true) :
    upsertKV t k v = t.map (fun e => if e.1 = k then (k, v) else e) := by
  unfold upsertKV
  rw [if_pos hc]

theorem upsertKV_of_not [DecidableEq κ] {t : List (κ × α)} {k : κ} (v : α)
    (hc : ¬containsKey t k = true) :
    upsertKV t k v = t ++ [(k, v)] := by
  unfold upsertKV
  rw [if_neg hc]

theorem upsertKV_idem [DecidableEq κ] (t : List (κ × α)) (k : κ) (v : α) :
    upsertKV (upsertKV t k v) k v = upsertKV t k v := by
  have hc : containsKey (upsertKV t k v) k = true := containsKey_upsertKV_self t k v
  rw [upsertKV_of_contains v hc]
  refine Eq.trans (List.map_congr_left ?_) (List.map_id _)
  intro e he
  rcases mem_upsertKV he with h1 | h1
  · simp [h1]
  · simp [if_neg h1.2, id]

theorem foldUpsert_cons [DecidableEq κ] (t : List (κ × α)) (x : κ × α) (L : List (κ × α)) :
    foldUpsert t (x :: L) = foldUpsert (upsertKV t x.1 x.2) L := rfl

theorem containsKey_foldUpsert_mono [DecidableEq κ] {a : κ} (L : List (κ × α)) :
    ∀ {t : List (κ × α)}, containsKey t a = true → containsKey (foldUpsert t L) a = true := by
  induction L with
  | nil => intro t h; exact h
  | cons x L ih =>
    intro t h
    rw [foldUpsert_cons]
    exact ih (containsKey_upsertKV_mono x.1 x.2 h)

theorem containsKey_foldUpsert_of_mem [DecidableEq κ] {L : List (κ × α)} {x : κ × α}
    (hx : x ∈ L) : ∀ (t : List (κ × α)), containsKey (foldUpsert t L) x.1 = true := by
  induction L with
  | nil => cases hx
  | cons y L ih =>
    intro t
    rw [foldUpsert_cons]
    rcases List.mem_cons.mp hx with h | h
    · subst h
      exact containsKey_foldUpsert_mono L (containsKey_upsertKV_self t x.1 x.2)
    · exact ih h _

theorem applyWrites_nil [DecidableEq κ] (e : κ × α) : applyWrites [] e = e := rfl

theorem applyWrites_cons [DecidableEq κ] (x : κ × α) (L : List (κ × α)) (e : κ × α) :
    applyWrites (x :: L) e = applyWrites L (if x.1 = e.1 then (e.1, x.2) else e) := rfl

theorem applyWrites_key [DecidableEq κ] (L : List (κ × α)) :
    ∀ e : κ × α, (applyWrites L e).1 = e.1 := by
  induction L with
  | nil => intro e; rfl
  | cons x L ih =>
    intro e
    rw [applyWrites_cons]
    by_cases h : x.1 = e.1
    · rw [if_pos h, ih]
    · rw [if_neg h, ih]

theorem keys_map_applyStep [DecidableEq κ] (t : List (κ × α)) (k : κ) (v : α) :
    (t.map (fun e => if e.1 = k then (k, v) else e)).map Prod.fst = t.map Prod.fst := by
  rw [List.map_map]
  refine List.map_congr_left ?_
  intro e _
  by_cases h : e.1 = k
  · simp [h]
  · simp [h]

theorem containsKey_eq_decide [DecidableEq κ] (t : List (κ × α)) (k : κ) :
    containsKey t k = decide (k ∈ t.map Prod.fst) := by
  rcases hb : containsKey t k with _ | _
  · have hf := containsKey_false hb
    have hnm : k ∉ t.map Prod.fst := by
      intro hm
      obtain ⟨e, he, hek⟩ := List.mem_map.mp hm
      exact hf e he hek
    simp [hnm]
  · obtain ⟨e, he, hek⟩ := containsKey_iff.mp hb
    have hm : k ∈ t.map Prod.fst := List.mem_map.mpr ⟨e, he, hek⟩
    simp [hm]

theorem containsKey_map_applyStep [DecidableEq κ] (t : List (κ × α)) (k : κ) (v : α) (a : κ) :
    containsKey (t.map (fun e => if e.1 = k then (k, v) else e)) a = containsKey t a := by
  rw [containsKey_eq_decide, containsKey_eq_decide, keys_map_applyStep]

theorem foldUpsert_eq_map [DecidableEq κ] (L : List (κ × α)) :
    ∀ (t : List (κ × α)), (∀ x ∈ L, containsKey t x.1 = true) →
    foldUpsert t L = t.map (applyWrites L) := by
  induction L with
  | nil =>
    intro t _
    have : applyWrites ([] : List (κ × α)) = id := by
      funext e
      rfl
    rw [foldUpsert, List.foldl_nil, this, List.map_id]
  | cons x L ih =>
    intro t h
    rw [foldUpsert_cons, upsertKV_of_contains x.2 (h x (List.mem_cons_self _ _))]
    rw [ih _ ?_, List.map_map]
    · refine List.map_congr_left ?_
      intro e _
      simp only [Function.comp, applyWrites_cons]
      by_cases he : x.1 = e.1
      · rw [if_pos he, if_pos he.symm, he]
      · rw [if_neg he, if_neg (fun hh => he hh.symm)]
    · intro y hy
      rw [containsKey_map_applyStep]
      exact h y (List.mem_cons_of_mem _ hy)

theorem applyWrites_irrel [DecidableEq κ] {L : List (κ × α)} {k : κ}
    (hk : ∃ y ∈ L, y.1 = k) (v w : α) : applyWrites L (k, v) = applyWrites L (k, w) := by
  induction L with
  | nil => obtain ⟨y, hy, _⟩ := hk; cases hy
  | cons x L ih =>
    rw [applyWrites_cons, applyWrites_cons]
    by_cases hx : x.1 = k
    · simp [hx]
    · simp only [if_neg hx]
      obtain ⟨y, hy, hyk⟩ := hk
      rcases List.mem_cons.mp hy with h | h
      · exact absurd (h ▸ hyk) hx
      · exact ih ⟨y, h, hyk⟩

theorem applyWrites_of_no_key [DecidableEq κ] {L : List (κ × α)} {k : κ}
    (hk : ∀ y ∈ L, y.1 ≠ k) (v : α) : applyWrites L (k, v) = (k, v) := by
  induction L with
  | nil => rfl
  | cons x L ih =>
    rw [applyWrites_cons]
    rw [if_neg (hk x (List.mem_cons_self _ _))]
    exact ih (fun y hy => hk y (List.mem_cons_of_mem _ hy))

theorem mem_foldUpsert_of_no_key [DecidableEq κ] {L : List (κ × α)} :
    ∀ {t : List (κ × α)} {e : κ × α}, e ∈ foldUpsert t L → (∀ y ∈ L, y.1 ≠ e.1) → e ∈ t := by
  induction L with
  | nil => intro t e h _; exact h
  | cons x L ih =>
    intro t e h hk
    rw [foldUpsert_cons] at h
    have he1 : e ∈ upsertKV t x.1 x.2 :=
      ih h (fun y hy => hk y (List.mem_cons_of_mem _ hy))
    rcases mem_upsertKV he1 with h1 | h1
    · exact absurd (by rw [h1]) (hk x (List.mem_cons_self _ _)).symm
    · exact h1.1

theorem applyWrites_fixed_of_mem_foldUpsert [DecidableEq κ] {L : List (κ × α)} :
    ∀ {t : List (κ × α)} {e : κ × α}, e ∈ foldUpsert t L → applyWrites L e = e := by
  induction L with
  | nil => intro t e _; rfl
  | cons x L ih =>
    intro t e h
    rw [foldUpsert_cons] at h
    have hfix : applyWrites L e = e := ih h
    rw [applyWrites_cons]
    by_cases hx : x.1 = e.1
    · rw [if_pos hx]
      by_cases hkL : ∃ y ∈ L, y.1 = e.1
      · calc applyWrites L (e.1, x.2) = applyWrites L (e.1, e.2) := applyWrites_irrel hkL _ _
          _ = e := hfix
      · push_neg at hkL
        rw [applyWrites_of_no_key hkL]
        have he1 : e ∈ upsertKV t x.1 x.2 :=
          mem_foldUpsert_of_no_key h hkL
        rcases mem_upsertKV he1 with h1 | h1
        · rw [h1]
        · exact absurd hx h1.2.symm
    · rw [if_neg hx]
      exact hfix

theorem foldUpsert_idem [DecidableEq κ] (t : List (κ × α)) (L : List (κ × α)) :
    foldUpsert (foldUpsert t L) L = foldUpsert t L := by
  rw [foldUpsert_eq_map L (foldUpsert t L)
    (fun x hx => containsKey_foldUpsert_of_mem hx t)]
  refine Eq.trans (List.map_congr_left ?_) (List.map_id _)
  intro e he
  exact applyWrites_fixed_of_mem_foldUpsert he

theorem nodup_keys_foldUpsert [DecidableEq κ] (L : List (κ × α)) :
    ∀ {t : List (κ × α)}, (t.map Prod.fst).Nodup → ((foldUpsert t L).map Prod.fst).Nodup := by
  induction L with
  | nil => intro t h; exact h
  | cons x L ih =>
    intro t h
    rw [foldUpsert_cons]
    exact ih (nodup_keys_upsertKV x.1 x.2 h)

theorem foldInsertAbs_cons [DecidableEq β] (t : List β) (x : β) (L : List β) :
    foldInsertAbs t (x :: L) = foldInsertAbs (insertAbs t x) L := rfl

theorem mem_insertAbs_self [DecidableEq β] (t : List β) (x : β) : x ∈ insertAbs t x := by
  unfold insertAbs
  by_cases h : x ∈ t
  · rw [if_pos h]; exact h
  · rw [if_neg h]; simp

theorem mem_insertAbs_mono [DecidableEq β] {t : List β} {y : β} (x : β) (h : y ∈ t) :
    y ∈ insertAbs t x := by
  unfold insertAbs
  by_cases hx : x ∈ t
  · rw [if_pos hx]; exact h
  · rw [if_neg hx]; exact List.mem_append_left _ h

theorem mem_foldInsertAbs_mono [DecidableEq β] {y : β} (L : List β) :
    ∀ {t : List β}, y ∈ t → y ∈ foldInsertAbs t L := by
  induction L with
  | nil => intro t h; exact h
  | cons x L ih =>
    intro t h
    rw [foldInsertAbs_cons]
    exact ih (mem_insertAbs_mono x h)

theorem mem_foldInsertAbs_of_mem [DecidableEq β] {L : List β} {x : β} (hx : x ∈ L) :
    ∀ (t : List β), x ∈ foldInsertAbs t L := by
  induction L with
  | nil => cases hx
  | cons y L ih =>
    intro t
    rw [foldInsertAbs_cons]
    rcases List.mem_cons.mp hx with h | h
    · subst h
      exact mem_foldInsertAbs_mono L (mem_insertAbs_self t x)
    · exact ih h _

theorem foldInsertAbs_of_subset [DecidableEq β] {L : List β} :
    ∀ {t : List β}, (∀ x ∈ L, x ∈ t) → foldInsertAbs t L = t := by
  induction L with
  | nil => intro t _; rfl
  | cons x L ih =>
    intro t h
    rw [foldInsertAbs_cons]
    have hx : insertAbs t x = t := by
      unfold insertAbs
      rw [if_pos (h x (List.mem_cons_self _ _))]
    rw [hx]
    exact ih (fun y hy => h y (List.mem_cons_of_mem _ hy))

theorem foldInsertAbs_idem [DecidableEq β] (t : List β) (L : List β) :
    foldInsertAbs (foldInsertAbs t L) L = foldInsertAbs t L :=
  foldInsertAbs_of_subset (fun _ hx => mem_foldInsertAbs_of_mem hx t)

theorem nodup_insertAbs [DecidableEq β] {t : List β} (x : β) (h : t.Nodup) :
    (insertAbs t x).Nodup := by
  unfold insertAbs
  by_cases hx : x ∈ t
  · rw [if_pos hx]; exact h
  · rw [if_neg hx]
    simp [List.nodup_append, h, hx]

theorem nodup_foldInsertAbs [DecidableEq β] (L : List β) :
    ∀ {t : List β}, t.Nodup → (foldInsertAbs t L).Nodup := by
  induction L with
  | nil => intro t h; exact h
  | cons x L ih =>
    intro t h
    rw [foldInsertAbs_cons]
    exact ih (nodup_insertAbs x h)

/-! ## Relational store model

The schema used by the import/export scripts (the `ON CONFLICT` targets
in the SQL name its uniqueness constraints): `journals` unique on
`source_id` (and on the surrogate `id`), `journal_scopes` and
`journal_metrics` keyed by `journal_id`, `journal_issn` unique on
`(journal_id, issn)`, `categories` and `subject_areas` unique on `name`,
`journal_categories` unique on `(journal_id, category_id)`,
`journal_areas` unique on `(journal_id, area_id)`.  Surrogate ids are
modelled by explicit `next*` counters standing for the serial
sequences. -/

structure JournalRow where
  id : Nat
  source_id : String
  title : Option String
  publisher : Option String
  country : Option String
  open_access : Bool
  coverage : Option String
  scimago_rank : Option Int
deriving DecidableEq, Repr

structure MetricsRow where
  sjr : Option Rat
  sjr_quartile : Option String
  h_index : Option Int
  total_docs_2024 : Option Int
  total_docs_3years : Option Int
  citations_per_doc : Option Rat
  total_citations_3years : Option Int
deriving DecidableEq, Repr

structure Store where
  journals : List JournalRow
  journal_scopes : List (Nat × String)
  journal_metrics : List (Nat × MetricsRow)
  journal_issn : List (Nat × String)
  categories : List (Nat × String)
  subject_areas : List (Nat × String)
  journal_categories : List ((Nat × Nat) × Option String)
  journal_areas : List (Nat × Nat)
  nextJournalId : Nat
  nextCategoryId : Nat
  nextAreaId : Nat
deriving DecidableEq, Repr

/-- The store with empty tables. -/
def emptyStore : Store :=
  ⟨[], [], [], [], [], [], [], [], 0, 0, 0⟩

/-- One record of the input JSON of `scripts/import_asm_journals.py`
(`asm_journals_with_scope.json`).  String-typed JSON fields are kept as
`Option String`; numeric JSON values are modelled by their decimal
strings (the script feeds them through `safe_int` / `safe_float`
anyway); a missing `source_id` is modelled by `""` (both `None` and `''`
are falsy in the loop's pre-check). -/
structure AsmJournal where
  source_id : String
  title : Option String
  country : Option String
  open_access : Bool
  coverage : Option String
  rank : Option String
  scope : Option String
  sjr : Option String
  sjr_quartile : Option String
  h_index : Option String
  total_docs_2024 : Option String
  total_docs_3years : Option String
  citations_per_doc : Option String
  total_citations_3years : Option String
  issn : String
  categories : String
  areas : String
deriving DecidableEq, Repr

/-- The publisher constant hard-coded in the ASM import (line 130). -/
def asmPublisher : String := "American Society for Microbiology"

/-- The field update of the `ON CONFLICT (source_id) DO UPDATE SET` arm
of the journals upsert (`scripts/import_asm_journals.py` lines 119-125):
all mutable fields are replaced, the id and source_id stay. -/
def updJournalAsm (x : JournalRow) (r : AsmJournal) : JournalRow :=
  { x with
    title := r.title
    publisher := some asmPublisher
    country := r.country
    open_access := r.open_access
    coverage := r.coverage
    scimago_rank := safe_intO r.rank }

/-- The row built by the insert arm of the journals upsert
(`scripts/import_asm_journals.py` lines 116-135). -/
def newJournalAsm (i : Nat) (r : AsmJournal) : JournalRow :=
  ⟨i, r.source_id, r.title, some asmPublisher, r.country, r.open_access,
   r.coverage, safe_intO r.rank⟩

/-- `INSERT INTO journals .. ON CONFLICT (source_id) DO UPDATE SET ..
RETURNING id` (`scripts/import_asm_journals.py` lines 116-136): update
the row carrying the source id if present (returning its id), else
insert a fresh row under the next serial id. -/
def upsertJournalAsm (s : Store) (r : AsmJournal) : Store × Nat :=
  match s.journals.find? (fun row => row.source_id = r.source_id) with
  | some row =>
    ({ s with journals :=
        s.journals.map (fun x => if x.source_id = r.source_id then updJournalAsm x r else x) },
     row.id)
  | none =>
    ({ s with
        journals := s.journals ++ [newJournalAsm s.nextJournalId r]
        nextJournalId := s.nextJournalId + 1 },
     s.nextJournalId)

/-- The scope upsert (`scripts/import_asm_journals.py` lines 138-145):
executed only when `scope_text` is truthy; `ON CONFLICT (journal_id) DO
UPDATE SET scope_text = EXCLUDED.scope_text`. -/
def syncScope (s : Store) (jid : Nat) (scope : Option String) : Store :=
  match scope with
  | none => s
  | some t =>
    if t = "" then s
    else { s with journal_scopes := upsertKV s.journal_scopes jid t }

/-- The metrics row the ASM import sends
(`scripts/import_asm_journals.py` lines 160-169). -/
def asmMetricsRow (r : AsmJournal) : MetricsRow :=
  ⟨safe_floatO r.sjr, r.sjr_quartile, safe_intO r.h_index,
   safe_intO r.total_docs_2024, safe_intO r.total_docs_3years,
   safe_floatO r.citations_per_doc, safe_intO r.total_citations_3years⟩

/-- The metrics upsert of the ASM import
(`scripts/import_asm_journals.py` lines 148-169): `ON CONFLICT
(journal_id) DO UPDATE SET` replaces every metric column with the
incoming (possibly NULL) value — there is no COALESCE here. -/
def syncMetricsAsm (s : Store) (jid : Nat) (r : AsmJournal) : Store :=
  { s with journal_metrics := upsertKV s.journal_metrics jid (asmMetricsRow r) }

/-- The ISSN loop (`scripts/import_asm_journals.py` lines 171-178):
`ON CONFLICT (journal_id, issn) DO NOTHING` for each parsed ISSN. -/
def syncIssns (s : Store) (jid : Nat) (issns : List String) : Store :=
  { s with journal_issn := foldInsertAbs s.journal_issn (issns.map (fun i => (jid, i))) }

/-- `INSERT INTO categories (name) .. ON CONFLICT (name) DO UPDATE SET
name = EXCLUDED.name RETURNING id` (`scripts/import_asm_journals.py`
lines 184-189): resolve the dictionary row by name — the conflicting
update rewrites the same name, so the table is unchanged — or create it
under the next serial id. -/
def resolveCategory (s : Store) (name : String) : Store × Nat :=
  match s.categories.find? (fun e => e.2 = name) with
  | some e => (s, e.1)
  | none =>
    ({ s with
        categories := s.categories ++ [(s.nextCategoryId, name)]
        nextCategoryId := s.nextCategoryId + 1 },
     s.nextCategoryId)

/-- The category loop (`scripts/import_asm_journals.py` lines 180-196):
resolve-or-create each category, then upsert the `(journal, category)`
link's quartile. -/
def syncCategories (s : Store) (jid : Nat) : List (String × Option String) → Store
  | [] => s
  | (n, q) :: rest =>
    let rc := resolveCategory s n
    let s2 := { rc.1 with
      journal_categories := upsertKV rc.1.journal_categories (jid, rc.2) q }
    syncCategories s2 jid rest

/-- `INSERT INTO subject_areas (name) .. ON CONFLICT (name) DO UPDATE SET
name = EXCLUDED.name RETURNING id` (`scripts/import_asm_journals.py`
lines 202-207). -/
def resolveArea (s : Store) (name : String) : Store × Nat :=
  match s.subject_areas.find? (fun e => e.2 = name) with
  | some e => (s, e.1)
  | none =>
    ({ s with
        subject_areas := s.subject_areas ++ [(s.nextAreaId, name)]
        nextAreaId := s.nextAreaId + 1 },
     s.nextAreaId)

/-- The area loop (`scripts/import_asm_journals.py` lines 198-214):
resolve-or-create each area, then `ON CONFLICT (journal_id, area_id) DO
NOTHING` on the link. -/
def syncAreas (s : Store) (jid : Nat) : List String → Store
  | [] => s
  | n :: rest =>
    let ra := resolveArea s n
    let s2 := { ra.1 with journal_areas := insertAbs ra.1.journal_areas (jid, ra.2) }
    syncAreas s2 jid rest

/-- The per-record synchronisation of `scripts/import_asm_journals.py`
(the `try` body, lines 114-214): journal upsert, scope upsert, metrics
upsert, ISSN inserts, category and area reconciliation, in source
order. -/
def syncAsm (s : Store) (r : AsmJournal) : Store :=
  syncAreas
    (syncCategories
      (syncIssns
        (syncMetricsAsm
          (syncScope (upsertJournalAsm s r).1 (upsertJournalAsm s r).2 r.scope)
          (upsertJournalAsm s r).2 r)
        (upsertJournalAsm s r).2 (parse_issn r.issn))
      (upsertJournalAsm s r).2 (parse_categories r.categories))
    (upsertJournalAsm s r).2 (parse_areas r.areas)

/-- The surrogate journal id the store associates with a source id
(`SELECT id FROM journals WHERE source_id = ..`). -/
def journalIdOf (s : Store) (sid : String) : Option Nat :=
  (s.journals.find? (fun row => row.source_id = sid)).map JournalRow.id

/-! ### Frame lemmas: which store fields each operation can touch -/

theorem upsertJournalAsm_frame (s : Store) (r : AsmJournal) :
    ∃ jl nj i, upsertJournalAsm s r = ({ s with journals := jl, nextJournalId := nj }, i) := by
  cases hf : s.journals.find? (fun row => row.source_id = r.source_id) with
  | none =>
    exact ⟨s.journals ++ [newJournalAsm s.nextJournalId r], s.nextJournalId + 1,
      s.nextJournalId, by simp [upsertJournalAsm, hf]⟩
  | some row =>
    exact ⟨s.journals.map (fun x => if x.source_id = r.source_id then updJournalAsm x r else x),
      s.nextJournalId, row.id, by simp [upsertJournalAsm, hf]⟩

theorem syncScope_frame (s : Store) (jid : Nat) (sc : Option String) :
    ∃ sl, syncScope s jid sc = { s with journal_scopes := sl } := by
  cases sc with
  | none => exact ⟨s.journal_scopes, rfl⟩
  | some t =>
    by_cases h : t = ""
    · exact ⟨s.journal_scopes, by simp [syncScope, h]⟩
    · exact ⟨upsertKV s.journal_scopes jid t, by simp [syncScope, h]⟩

theorem resolveCategory_frame (s : Store) (n : String) :
    ∃ ct nc, (resolveCategory s n).1 = { s with categories := ct, nextCategoryId := nc } := by
  cases hf : s.categories.find? (fun e => e.2 = n) with
  | none =>
    exact ⟨s.categories ++ [(s.nextCategoryId, n)], s.nextCategoryId + 1,
      by simp [resolveCategory, hf]⟩
  | some e => exact ⟨s.categories, s.nextCategoryId, by simp [resolveCategory, hf]⟩

theorem resolveArea_frame (s : Store) (n : String) :
    ∃ at2 na, (resolveArea s n).1 = { s with subject_areas := at2, nextAreaId := na } := by
  cases hf : s.subject_areas.find? (fun e => e.2 = n) with
  | none =>
    exact ⟨s.subject_areas ++ [(s.nextAreaId, n)], s.nextAreaId + 1,
      by simp [resolveArea, hf]⟩
  | some e => exact ⟨s.subject_areas, s.nextAreaId, by simp [resolveArea, hf]⟩

theorem syncCategories_frame (jid : Nat) :
    ∀ (cats : List (String × Option String)) (s : Store), ∃ ct nc jc,
    syncCategories s jid cats = { s with
      categories := ct, journal_categories := jc, nextCategoryId := nc } := by
  intro cats
  induction cats with
  | nil =>
    intro s
    exact ⟨s.categories, s.nextCategoryId, s.journal_categories, rfl⟩
  | cons c rest ih =>
    intro s
    obtain ⟨n, q⟩ := c
    obtain ⟨ct0, nc0, hre⟩ := resolveCategory_frame s n
    have hstep : syncCategories s jid ((n, q) :: rest) =
        syncCategories { (resolveCategory s n).1 with
          journal_categories :=
            upsertKV (resolveCategory s n).1.journal_categories (jid, (resolveCategory s n).2) q }
          jid rest := rfl
    obtain ⟨ct, nc, jc, he⟩ := ih ({ (resolveCategory s n).1 with
      journal_categories :=
        upsertKV (resolveCategory s n).1.journal_categories (jid, (resolveCategory s n).2) q })
    refine ⟨ct, nc, jc, ?_⟩
    rw [hstep, he, hre]

theorem syncAreas_frame (jid : Nat) :
    ∀ (areas : List String) (s : Store), ∃ at2 na ja,
    syncAreas s jid areas = { s with
      subject_areas := at2, journal_areas := ja, nextAreaId := na } := by
  intro areas
  induction areas with
  | nil =>
    intro s
    exact ⟨s.subject_areas, s.nextAreaId, s.journal_areas, rfl⟩
  | cons n rest ih =>
    intro s
    obtain ⟨at0, na0, hre⟩ := resolveArea_frame s n
    have hstep : syncAreas s jid (n :: rest) =
        syncAreas { (resolveArea s n).1 with
          journal_areas := insertAbs (resolveArea s n).1.journal_areas (jid, (resolveArea s n).2) }
          jid rest := rfl
    obtain ⟨at2, na, ja, he⟩ := ih ({ (resolveArea s n).1 with
      journal_areas := insertAbs (resolveArea s n).1.journal_areas (jid, (resolveArea s n).2) })
    refine ⟨at2, na, ja, ?_⟩
    rw [hstep, he, hre]

/-! ### Factoring the category/area loops

The dictionary resolutions never read the link tables and the link
writes never read the dictionaries, so each loop factors into a pure
resolution pass producing the resolved id/payload list, followed by a
fold of link writes. -/

/-- The resolution pass of the category loop: thread the dictionary
table and serial counter through the list, returning the resolved
`(category_id, quartile)` list in order. -/
def catResolveList (tbl : List (Nat × String)) (next : Nat) :
    List (String × Option String) → List (Nat × String) × Nat × List (Nat × Option String)
  | [] => (tbl, next, [])
  | (n, q) :: rest =>
    match tbl.find? (fun e => e.2 = n) with
    | some e =>
      let r := catResolveList tbl next rest
      (r.1, r.2.1, (e.1, q) :: r.2.2)
    | none =>
      let r := catResolveList (tbl ++ [(next, n)]) (next + 1) rest
      (r.1, r.2.1, (next, q) :: r.2.2)

/-- The resolution pass of the area loop. -/
def areaResolveList (tbl : List (Nat × String)) (next : Nat) :
    List String → List (Nat × String) × Nat × List Nat
  | [] => (tbl, next, [])
  | n :: rest =>
    match tbl.find? (fun e => e.2 = n) with
    | some e =>
      let r := areaResolveList tbl next rest
      (r.1, r.2.1, e.1 :: r.2.2)
    | none =>
      let r := areaResolveList (tbl ++ [(next, n)]) (next + 1) rest
      (r.1, r.2.1, next :: r.2.2)

theorem catResolveList_ext (cats : List (String × Option String)) :
    ∀ tbl next, ∃ ext, (catResolveList tbl next cats).1 = tbl ++ ext := by
  induction cats with
  | nil => intro tbl next; exact ⟨[], by simp [catResolveList]⟩
  | cons c rest ih =>
    intro tbl next
    obtain ⟨n, q⟩ := c
    cases hf : tbl.find? (fun e => e.2 = n) with
    | some e =>
      obtain ⟨ext, he⟩ := ih tbl next
      exact ⟨ext, by simp [catResolveList, hf, he]⟩
    | none =>
      obtain ⟨ext, he⟩ := ih (tbl ++ [(next, n)]) (next + 1)
      exact ⟨(next, n) :: ext, by simp [catResolveList, hf, he]⟩

theorem areaResolveList_ext (areas : List String) :
    ∀ tbl next, ∃ ext, (areaResolveList tbl next areas).1 = tbl ++ ext := by
  induction areas with
  | nil => intro tbl next; exact ⟨[], by simp [areaResolveList]⟩
  | cons n rest ih =>
    intro tbl next
    cases hf : tbl.find? (fun e => e.2 = n) with
    | some e =>
      obtain ⟨ext, he⟩ := ih tbl next
      exact ⟨ext, by simp [areaResolveList, hf, he]⟩
    | none =>
      obtain ⟨ext, he⟩ := ih (tbl ++ [(next, n)]) (next + 1)
      exact ⟨(next, n) :: ext, by simp [areaResolveList, hf, he]⟩

theorem catResolveList_stable (cats : List (String × Option String)) :
    ∀ tbl next,
    catResolveList (catResolveList tbl next cats).1 (catResolveList tbl next cats).2.1 cats =
      catResolveList tbl next cats := by
  induction cats with
  | nil => intro tbl next; rfl
  | cons c rest ih =>
    intro tbl next
    obtain ⟨n, q⟩ := c
    cases hf : tbl.find? (fun e => e.2 = n) with
    | some e =>
      have hr : catResolveList tbl next ((n, q) :: rest) =
          ((catResolveList tbl next rest).1, (catResolveList tbl next rest).2.1,
           (e.1, q) :: (catResolveList tbl next rest).2.2) := by
        simp [catResolveList, hf]
      obtain ⟨ext, hext⟩ := catResolveList_ext rest tbl next
      have hfind : (catResolveList tbl next rest).1.find? (fun x => x.2 = n) = some e := by
        rw [hext, List.find?_append, hf]
        rfl
      rw [hr]
      show catResolveList _ _ ((n, q) :: rest) = _
      rw [show (((catResolveList tbl next rest).1, (catResolveList tbl next rest).2.1,
            (e.1, q) :: (catResolveList tbl next rest).2.2) : List (Nat × String) × Nat × List (Nat × Option String)).1 =
          (catResolveList tbl next rest).1 from rfl]
      simp only [catResolveList, hfind]
      rw [ih tbl next]
    | none =>
      have hr : catResolveList tbl next ((n, q) :: rest) =
          ((catResolveList (tbl ++ [(next, n)]) (next + 1) rest).1,
           (catResolveList (tbl ++ [(next, n)]) (next + 1) rest).2.1,
           (next, q) :: (catResolveList (tbl ++ [(next, n)]) (next + 1) rest).2.2) := by
        simp [catResolveList, hf]
      obtain ⟨ext, hext⟩ := catResolveList_ext rest (tbl ++ [(next, n)]) (next + 1)
      have hfind : (catResolveList (tbl ++ [(next, n)]) (next + 1) rest).1.find?
          (fun x => x.2 = n) = some (next, n) := by
        rw [hext, List.append_assoc, List.find?_append, hf]
        simp
      rw [hr]
      simp only [catResolveList, hfind]
      rw [ih (tbl ++ [(next, n)]) (next + 1)]

theorem areaResolveList_stable (areas : List String) :
    ∀ tbl next,
    areaResolveList (areaResolveList tbl next areas).1 (areaResolveList tbl next areas).2.1 areas =
      areaResolveList tbl next areas := by
  induction areas with
  | nil => intro tbl next; rfl
  | cons n rest ih =>
    intro tbl next
    cases hf : tbl.find? (fun e => e.2 = n) with
    | some e =>
      have hr : areaResolveList tbl next (n :: rest) =
          ((areaResolveList tbl next rest).1, (areaResolveList tbl next rest).2.1,
           e.1 :: (areaResolveList tbl next rest).2.2) := by
        simp [areaResolveList, hf]
      obtain ⟨ext, hext⟩ := areaResolveList_ext rest tbl next
      have hfind : (areaResolveList tbl next rest).1.find? (fun x => x.2 = n) = some e := by
        rw [hext, List.find?_append, hf]
        rfl
      rw [hr]
      simp only [areaResolveList, hfind]
      rw [ih tbl next]
    | none =>
      have hr : areaResolveList tbl next (n :: rest) =
          ((areaResolveList (tbl ++ [(next, n)]) (next + 1) rest).1,
           (areaResolveList (tbl ++ [(next, n)]) (next + 1) rest).2.1,
           next :: (areaResolveList (tbl ++ [(next, n)]) (next + 1) rest).2.2) := by
        simp [areaResolveList, hf]
      obtain ⟨ext, hext⟩ := areaResolveList_ext rest (tbl ++ [(next, n)]) (next + 1)
      have hfind : (areaResolveList (tbl ++ [(next, n)]) (next + 1) rest).1.find?
          (fun x => x.2 = n) = some (next, n) := by
        rw [hext, List.append_assoc, List.find?_append, hf]
        simp
      rw [hr]
      simp only [areaResolveList, hfind]
      rw [ih (tbl ++ [(next, n)]) (next + 1)]

theorem syncCategories_factor (jid : Nat) (cats : List (String × Option String)) :
    ∀ (s : Store),
    syncCategories s jid cats = { s with
      categories := (catResolveList s.categories s.nextCategoryId cats).1
      nextCategoryId := (catResolveList s.categories s.nextCategoryId cats).2.1
      journal_categories := foldUpsert s.journal_categories
        (((catResolveList s.categories s.nextCategoryId cats).2.2).map
          (fun e => ((jid, e.1), e.2))) } := by
  induction cats with
  | nil => intro s; rfl
  | cons c rest ih =>
    intro s
    obtain ⟨n, q⟩ := c
    cases hf : s.categories.find? (fun e => e.2 = n) with
    | some e =>
      have hres : resolveCategory s n = (s, e.1) := by
        simp [resolveCategory, hf]
      have hstep : syncCategories s jid ((n, q) :: rest) =
          syncCategories { s with
            journal_categories := upsertKV s.journal_categories (jid, e.1) q } jid rest := by
        show syncCategories ({ (resolveCategory s n).1 with
          journal_categories :=
            upsertKV (resolveCategory s n).1.journal_categories (jid, (resolveCategory s n).2) q })
          jid rest = _
        rw [hres]
      rw [hstep, ih]
      have hcr : catResolveList s.categories s.nextCategoryId ((n, q) :: rest) =
          ((catResolveList s.categories s.nextCategoryId rest).1,
           (catResolveList s.categories s.nextCategoryId rest).2.1,
           (e.1, q) :: (catResolveList s.categories s.nextCategoryId rest).2.2) := by
        simp [catResolveList, hf]
      rw [hcr]
      rfl
    | none =>
      have hres : resolveCategory s n =
          ({ s with
              categories := s.categories ++ [(s.nextCategoryId, n)]
              nextCategoryId := s.nextCategoryId + 1 }, s.nextCategoryId) := by
        simp [resolveCategory, hf]
      have hstep : syncCategories s jid ((n, q) :: rest) =
          syncCategories { s with
            categories := s.categories ++ [(s.nextCategoryId, n)]
            nextCategoryId := s.nextCategoryId + 1
            journal_categories := upsertKV s.journal_categories (jid, s.nextCategoryId) q }
            jid rest := by
        show syncCategories ({ (resolveCategory s n).1 with
          journal_categories :=
            upsertKV (resolveCategory s n).1.journal_categories (jid, (resolveCategory s n).2) q })
          jid rest = _
        rw [hres]
      rw [hstep, ih]
      have hcr : catResolveList s.categories s.nextCategoryId ((n, q) :: rest) =
          ((catResolveList (s.categories ++ [(s.nextCategoryId, n)]) (s.nextCategoryId + 1) rest).1,
           (catResolveList (s.categories ++ [(s.nextCategoryId, n)]) (s.nextCategoryId + 1) rest).2.1,
           (s.nextCategoryId, q) ::
             (catResolveList (s.categories ++ [(s.nextCategoryId, n)]) (s.nextCategoryId + 1) rest).2.2) := by
        simp [catResolveList, hf]
      rw [hcr]
      rfl

theorem syncAreas_factor (jid : Nat) (areas : List String) :
    ∀ (s : Store),
    syncAreas s jid areas = { s with
      subject_areas := (areaResolveList s.subject_areas s.nextAreaId areas).1
      nextAreaId := (areaResolveList s.subject_areas s.nextAreaId areas).2.1
      journal_areas := foldInsertAbs s.journal_areas
        (((areaResolveList s.subject_areas s.nextAreaId areas).2.2).map
          (fun a => (jid, a))) } := by
  induction areas with
  | nil => intro s; rfl
  | cons n rest ih =>
    intro s
    cases hf : s.subject_areas.find? (fun e => e.2 = n) with
    | some e =>
      have hres : resolveArea s n = (s, e.1) := by
        simp [resolveArea, hf]
      have hstep : syncAreas s jid (n :: rest) =
          syncAreas { s with
            journal_areas := insertAbs s.journal_areas (jid, e.1) } jid rest := by
        show syncAreas ({ (resolveArea s n).1 with
          journal_areas := insertAbs (resolveArea s n).1.journal_areas (jid, (resolveArea s n).2) })
          jid rest = _
        rw [hres]
      rw [hstep, ih]
      have hcr : areaResolveList s.subject_areas s.nextAreaId (n :: rest) =
          ((areaResolveList s.subject_areas s.nextAreaId rest).1,
           (areaResolveList s.subject_areas s.nextAreaId rest).2.1,
           e.1 :: (areaResolveList s.subject_areas s.nextAreaId rest).2.2) := by
        simp [areaResolveList, hf]
      rw [hcr]
      rfl
    | none =>
      have hres : resolveArea s n =
          ({ s with
              subject_areas := s.subject_areas ++ [(s.nextAreaId, n)]
              nextAreaId := s.nextAreaId + 1 }, s.nextAreaId) := by
        simp [resolveArea, hf]
      have hstep : syncAreas s jid (n :: rest) =
          syncAreas { s with
            subject_areas := s.subject_areas ++ [(s.nextAreaId, n)]
            nextAreaId := s.nextAreaId + 1
            journal_areas := insertAbs s.journal_areas (jid, s.nextAreaId) }
            jid rest := by
        show syncAreas ({ (resolveArea s n).1 with
          journal_areas := insertAbs (resolveArea s n).1.journal_areas (jid, (resolveArea s n).2) })
          jid rest = _
        rw [hres]
      rw [hstep, ih]
      have hcr : areaResolveList s.subject_areas s.nextAreaId (n :: rest) =
          ((areaResolveList (s.subject_areas ++ [(s.nextAreaId, n)]) (s.nextAreaId + 1) rest).1,
           (areaResolveList (s.subject_areas ++ [(s.nextAreaId, n)]) (s.nextAreaId + 1) rest).2.1,
           s.nextAreaId ::
             (areaResolveList (s.subject_areas ++ [(s.nextAreaId, n)]) (s.nextAreaId + 1) rest).2.2) := by
        simp [areaResolveList, hf]
      rw [hcr]
      rfl

/-! ### Second application of each synchronisation step is the identity -/

theorem updJournalAsm_source_id (x : JournalRow) (r : AsmJournal) :
    (updJournalAsm x r).source_id = x.source_id := rfl

theorem updJournalAsm_id (x : JournalRow) (r : AsmJournal) :
    (updJournalAsm x r).id = x.id := rfl

theorem updJournalAsm_idem (x : JournalRow) (r : AsmJournal) :
    updJournalAsm (updJournalAsm x r) r = updJournalAsm x r := rfl

theorem updJournalAsm_newJournalAsm (i : Nat) (r : AsmJournal) :
    updJournalAsm (newJournalAsm i r) r = newJournalAsm i r := rfl

theorem upsertJournalAsm_stable (s : Store) (r : AsmJournal) (t : Store)
    (hj : t.journals = (upsertJournalAsm s r).1.journals) :
    upsertJournalAsm t r = (t, (upsertJournalAsm s r).2) := by
  have hg : ∀ x : JournalRow,
      ((fun x => if x.source_id = r.source_id then updJournalAsm x r else x) x).source_id
        = x.source_id := by
    intro x
    by_cases h : x.source_id = r.source_id
    · simp [h, updJournalAsm_source_id]
    · simp [h]
  cases hf : s.journals.find? (fun row => row.source_id = r.source_id) with
  | some row =>
    have h1 : (upsertJournalAsm s r).1.journals =
        s.journals.map (fun x => if x.source_id = r.source_id then updJournalAsm x r else x) := by
      simp [upsertJournalAsm, hf]
    have h2 : (upsertJournalAsm s r).2 = row.id := by
      simp [upsertJournalAsm, hf]
    have hpg : (fun x : JournalRow => decide (x.source_id = r.source_id)) ∘
        (fun x => if x.source_id = r.source_id then updJournalAsm x r else x) =
        (fun x : JournalRow => decide (x.source_id = r.source_id)) := by
      funext x
      simp [Function.comp, hg x]
    have hfind : t.journals.find? (fun row => row.source_id = r.source_id) =
        some (if row.source_id = r.source_id then updJournalAsm row r else row) := by
      rw [hj, h1, List.find?_map, hpg, hf]
      rfl
    have hprow : row.source_id = r.source_id := by
      have := List.find?_some hf
      simpa using this
    rw [if_pos hprow] at hfind
    have hmapmap : t.journals.map
        (fun x => if x.source_id = r.source_id then updJournalAsm x r else x) = t.journals := by
      rw [hj, h1, List.map_map]
      refine List.map_congr_left ?_
      intro x _
      simp only [Function.comp]
      by_cases h : x.source_id = r.source_id
      · rw [if_pos h, if_pos ((updJournalAsm_source_id x r).trans h), updJournalAsm_idem]
      · rw [if_neg h, if_neg h]
    show upsertJournalAsm t r = (t, (upsertJournalAsm s r).2)
    rw [h2]
    unfold upsertJournalAsm
    rw [hfind]
    simp only [updJournalAsm_id]
    congr 1
    rw [hmapmap]
  | none =>
    have h1 : (upsertJournalAsm s r).1.journals =
        s.journals ++ [newJournalAsm s.nextJournalId r] := by
      simp [upsertJournalAsm, hf]
    have h2 : (upsertJournalAsm s r).2 = s.nextJournalId := by
      simp [upsertJournalAsm, hf]
    have hnew : (newJournalAsm s.nextJournalId r).source_id = r.source_id := rfl
    have hfind : t.journals.find? (fun row => row.source_id = r.source_id) =
        some (newJournalAsm s.nextJournalId r) := by
      rw [hj, h1, List.find?_append, hf]
      simp [hnew]
    have hmap : t.journals.map
        (fun x => if x.source_id = r.source_id then updJournalAsm x r else x) = t.journals := by
      rw [hj, h1, List.map_append]
      have hl : s.journals.map
          (fun x => if x.source_id = r.source_id then updJournalAsm x r else x) = s.journals := by
        refine Eq.trans (List.map_congr_left ?_) (List.map_id _)
        intro x hx
        have hnx : ¬(x.source_id = r.source_id) := by
          have := List.find?_eq_none.mp hf x hx
          simpa using this
        simp [hnx, id]
      rw [hl]
      simp [hnew, updJournalAsm_newJournalAsm]
    show upsertJournalAsm t r = (t, (upsertJournalAsm s r).2)
    rw [h2]
    unfold upsertJournalAsm
    rw [hfind]
    show ({ t with journals :=
        t.journals.map (fun x => if x.source_id = r.source_id then updJournalAsm x r else x) },
      (newJournalAsm s.nextJournalId r).id) = (t, s.nextJournalId)
    rw [hmap]
    rfl

theorem syncScope_stable (s0 t : Store) (jid : Nat) (sc : Option String)
    (h : t.journal_scopes = (syncScope s0 jid sc).journal_scopes) :
    syncScope t jid sc = t := by
  cases sc with
  | none => rfl
  | some txt =>
    by_cases he : txt = ""
    · simp [syncScope, he]
    · have h2 : t.journal_scopes = upsertKV s0.journal_scopes jid txt := by
        simpa [syncScope, he] using h
      have h3 : upsertKV t.journal_scopes jid txt = t.journal_scopes := by
        rw [h2]
        exact upsertKV_idem _ _ _
      show (if txt = "" then t else { t with journal_scopes := upsertKV t.journal_scopes jid txt }) = t
      rw [if_neg he, h3]

theorem syncMetricsAsm_stable (s0 t : Store) (jid : Nat) (r : AsmJournal)
    (h : t.journal_metrics = (syncMetricsAsm s0 jid r).journal_metrics) :
    syncMetricsAsm t jid r = t := by
  have h2 : t.journal_metrics = upsertKV s0.journal_metrics jid (asmMetricsRow r) := h
  have h3 : upsertKV t.journal_metrics jid (asmMetricsRow r) = t.journal_metrics := by
    rw [h2]
    exact upsertKV_idem _ _ _
  show { t with journal_metrics := upsertKV t.journal_metrics jid (asmMetricsRow r) } = t
  rw [h3]

theorem syncIssns_stable (s0 t : Store) (jid : Nat) (issns : List String)
    (h : t.journal_issn = (syncIssns s0 jid issns).journal_issn) :
    syncIssns t jid issns = t := by
  have h2 : t.journal_issn = foldInsertAbs s0.journal_issn (issns.map (fun i => (jid, i))) := h
  have h3 : foldInsertAbs t.journal_issn (issns.map (fun i => (jid, i))) = t.journal_issn := by
    rw [h2]
    exact foldInsertAbs_idem _ _
  show { t with journal_issn := foldInsertAbs t.journal_issn (issns.map (fun i => (jid, i))) } = t
  rw [h3]

theorem syncCategories_stable (s0 t : Store) (jid : Nat) (cats : List (String × Option String))
    (hc : t.categories = (syncCategories s0 jid cats).categories)
    (hn : t.nextCategoryId = (syncCategories s0 jid cats).nextCategoryId)
    (hj : t.journal_categories = (syncCategories s0 jid cats).journal_categories) :
    syncCategories t jid cats = t := by
  have hc2 : t.categories = (catResolveList s0.categories s0.nextCategoryId cats).1 := by
    rw [hc, syncCategories_factor]
  have hn2 : t.nextCategoryId = (catResolveList s0.categories s0.nextCategoryId cats).2.1 := by
    rw [hn, syncCategories_factor]
  have hj2 : t.journal_categories = foldUpsert s0.journal_categories
      (((catResolveList s0.categories s0.nextCategoryId cats).2.2).map
        (fun e => ((jid, e.1), e.2))) := by
    rw [hj, syncCategories_factor]
  have hstab := catResolveList_stable cats s0.categories s0.nextCategoryId
  have e1 : (catResolveList t.categories t.nextCategoryId cats).1 = t.categories := by
    rw [hc2, hn2, hstab]
  have e2 : (catResolveList t.categories t.nextCategoryId cats).2.1 = t.nextCategoryId := by
    rw [hc2, hn2, hstab]
  have e3 : foldUpsert t.journal_categories
      (((catResolveList t.categories t.nextCategoryId cats).2.2).map
        (fun e => ((jid, e.1), e.2))) = t.journal_categories := by
    rw [hj2, hc2, hn2, hstab]
    exact foldUpsert_idem _ _
  rw [syncCategories_factor, e1, e2, e3]

theorem syncAreas_stable (s0 t : Store) (jid : Nat) (areas : List String)
    (ha : t.subject_areas = (syncAreas s0 jid areas).subject_areas)
    (hn : t.nextAreaId = (syncAreas s0 jid areas).nextAreaId)
    (hj : t.journal_areas = (syncAreas s0 jid areas).journal_areas) :
    syncAreas t jid areas = t := by
  have ha2 : t.subject_areas = (areaResolveList s0.subject_areas s0.nextAreaId areas).1 := by
    rw [ha, syncAreas_factor]
  have hn2 : t.nextAreaId = (areaResolveList s0.subject_areas s0.nextAreaId areas).2.1 := by
    rw [hn, syncAreas_factor]
  have hj2 : t.journal_areas = foldInsertAbs s0.journal_areas
      (((areaResolveList s0.subject_areas s0.nextAreaId areas).2.2).map (fun a => (jid, a))) := by
    rw [hj, syncAreas_factor]
  have hstab := areaResolveList_stable areas s0.subject_areas s0.nextAreaId
  have e1 : (areaResolveList t.subject_areas t.nextAreaId areas).1 = t.subject_areas := by
    rw [ha2, hn2, hstab]
  have e2 : (areaResolveList t.subject_areas t.nextAreaId areas).2.1 = t.nextAreaId := by
    rw [ha2, hn2, hstab]
  have e3 : foldInsertAbs t.journal_areas
      (((areaResolveList t.subject_areas t.nextAreaId areas).2.2).map (fun a => (jid, a))) =
      t.journal_areas := by
    rw [hj2, ha2, hn2, hstab]
    exact foldInsertAbs_idem _ _
  rw [syncAreas_factor, e1, e2, e3]

/-! ### Field preservation of the later stages -/

theorem syncScope_keeps_journals (s : Store) (jid : Nat) (sc : Option String) :
    (syncScope s jid sc).journals = s.journals := by
  obtain ⟨sl, h⟩ := syncScope_frame s jid sc
  rw [h]

theorem syncMetricsAsm_keeps_journals (s : Store) (jid : Nat) (r : AsmJournal) :
    (syncMetricsAsm s jid r).journals = s.journals := rfl

theorem syncMetricsAsm_keeps_scopes (s : Store) (jid : Nat) (r : AsmJournal) :
    (syncMetricsAsm s jid r).journal_scopes = s.journal_scopes := rfl

theorem syncIssns_keeps_journals (s : Store) (jid : Nat) (l : List String) :
    (syncIssns s jid l).journals = s.journals := rfl

theorem syncIssns_keeps_scopes (s : Store) (jid : Nat) (l : List String) :
    (syncIssns s jid l).journal_scopes = s.journal_scopes := rfl

theorem syncIssns_keeps_metrics (s : Store) (jid : Nat) (l : List String) :
    (syncIssns s jid l).journal_metrics = s.journal_metrics := rfl

theorem syncCategories_keeps_journals (s : Store) (jid : Nat) (cats : List (String × Option String)) :
    (syncCategories s jid cats).journals = s.journals := by
  obtain ⟨ct, nc, jc, h⟩ := syncCategories_frame jid cats s
  rw [h]

theorem syncCategories_keeps_scopes (s : Store) (jid : Nat) (cats : List (String × Option String)) :
    (syncCategories s jid cats).journal_scopes = s.journal_scopes := by
  obtain ⟨ct, nc, jc, h⟩ := syncCategories_frame jid cats s
  rw [h]

theorem syncCategories_keeps_metrics (s : Store) (jid : Nat) (cats : List (String × Option String)) :
    (syncCategories s jid cats).journal_metrics = s.journal_metrics := by
  obtain ⟨ct, nc, jc, h⟩ := syncCategories_frame jid cats s
  rw [h]

theorem syncCategories_keeps_issn (s : Store) (jid : Nat) (cats : List (String × Option String)) :
    (syncCategories s jid cats).journal_issn = s.journal_issn := by
  obtain ⟨ct, nc, jc, h⟩ := syncCategories_frame jid cats s
  rw [h]

theorem syncAreas_keeps_journals (s : Store) (jid : Nat) (l : List String) :
    (syncAreas s jid l).journals = s.journals := by
  obtain ⟨a, b, c, h⟩ := syncAreas_frame jid l s
  rw [h]

theorem syncAreas_keeps_scopes (s : Store) (jid : Nat) (l : List String) :
    (syncAreas s jid l).journal_scopes = s.journal_scopes := by
  obtain ⟨a, b, c, h⟩ := syncAreas_frame jid l s
  rw [h]

theorem syncAreas_keeps_metrics (s : Store) (jid : Nat) (l : List String) :
    (syncAreas s jid l).journal_metrics = s.journal_metrics := by
  obtain ⟨a, b, c, h⟩ := syncAreas_frame jid l s
  rw [h]

theorem syncAreas_keeps_issn (s : Store) (jid : Nat) (l : List String) :
    (syncAreas s jid l).journal_issn = s.journal_issn := by
  obtain ⟨a, b, c, h⟩ := syncAreas_frame jid l s
  rw [h]

theorem syncAreas_keeps_categories (s : Store) (jid : Nat) (l : List String) :
    (syncAreas s jid l).categories = s.categories := by
  obtain ⟨a, b, c, h⟩ := syncAreas_frame jid l s
  rw [h]

theorem syncAreas_keeps_nextCategoryId (s : Store) (jid : Nat) (l : List String) :
    (syncAreas s jid l).nextCategoryId = s.nextCategoryId := by
  obtain ⟨a, b, c, h⟩ := syncAreas_frame jid l s
  rw [h]

theorem syncAreas_keeps_journal_categories (s : Store) (jid : Nat) (l : List String) :
    (syncAreas s jid l).journal_categories = s.journal_categories := by
  obtain ⟨a, b, c, h⟩ := syncAreas_frame jid l s
  rw [h]

/-- `syncAsm s r` performs exactly one pass; the claim that a second
pass changes nothing reduces to showing that each table, as left by the
corresponding first-pass stage, is untouched by the later stages and
absorbs the same write again.  This is the full statement. -/
theorem syncAsm_idem (s : Store) (r : AsmJournal) :
    syncAsm (syncAsm s r) r = syncAsm s r := by
  have hJ : upsertJournalAsm (syncAsm s r) r = (syncAsm s r, (upsertJournalAsm s r).2) := by
    refine upsertJournalAsm_stable s r (syncAsm s r) ?_
    show (syncAsm s r).journals = _
    rw [show syncAsm s r = syncAreas
        (syncCategories
          (syncIssns
            (syncMetricsAsm
              (syncScope (upsertJournalAsm s r).1 (upsertJournalAsm s r).2 r.scope)
              (upsertJournalAsm s r).2 r)
            (upsertJournalAsm s r).2 (parse_issn r.issn))
          (upsertJournalAsm s r).2 (parse_categories r.categories))
        (upsertJournalAsm s r).2 (parse_areas r.areas) from rfl,
      syncAreas_keeps_journals, syncCategories_keeps_journals, syncIssns_keeps_journals,
      syncMetricsAsm_keeps_journals, syncScope_keeps_journals]
  have hS : syncScope (syncAsm s r) (upsertJournalAsm s r).2 r.scope = syncAsm s r := by
    refine syncScope_stable (upsertJournalAsm s r).1 (syncAsm s r) (upsertJournalAsm s r).2 r.scope ?_
    show (syncAsm s r).journal_scopes = _
    rw [show syncAsm s r = syncAreas
        (syncCategories
          (syncIssns
            (syncMetricsAsm
              (syncScope (upsertJournalAsm s r).1 (upsertJournalAsm s r).2 r.scope)
              (upsertJournalAsm s r).2 r)
            (upsertJournalAsm s r).2 (parse_issn r.issn))
          (upsertJournalAsm s r).2 (parse_categories r.categories))
        (upsertJournalAsm s r).2 (parse_areas r.areas) from rfl,
      syncAreas_keeps_scopes, syncCategories_keeps_scopes, syncIssns_keeps_scopes,
      syncMetricsAsm_keeps_scopes]
  have hM : syncMetricsAsm (syncAsm s r) (upsertJournalAsm s r).2 r = syncAsm s r := by
    refine syncMetricsAsm_stable
      (syncScope (upsertJournalAsm s r).1 (upsertJournalAsm s r).2 r.scope)
      (syncAsm s r) (upsertJournalAsm s r).2 r ?_
    show (syncAsm s r).journal_metrics = _
    rw [show syncAsm s r = syncAreas
        (syncCategories
          (syncIssns
            (syncMetricsAsm
              (syncScope (upsertJournalAsm s r).1 (upsertJournalAsm s r).2 r.scope)
              (upsertJournalAsm s r).2 r)
            (upsertJournalAsm s r).2 (parse_issn r.issn))
          (upsertJournalAsm s r).2 (parse_categories r.categories))
        (upsertJournalAsm s r).2 (parse_areas r.areas) from rfl,
      syncAreas_keeps_metrics, syncCategories_keeps_metrics, syncIssns_keeps_metrics]
  have hI : syncIssns (syncAsm s r) (upsertJournalAsm s r).2 (parse_issn r.issn) = syncAsm s r := by
    refine syncIssns_stable
      (syncMetricsAsm
        (syncScope (upsertJournalAsm s r).1 (upsertJournalAsm s r).2 r.scope)
        (upsertJournalAsm s r).2 r)
      (syncAsm s r) (upsertJournalAsm s r).2 (parse_issn r.issn) ?_
    show (syncAsm s r).journal_issn = _
    rw [show syncAsm s r = syncAreas
        (syncCategories
          (syncIssns
            (syncMetricsAsm
              (syncScope (upsertJournalAsm s r).1 (upsertJournalAsm s r).2 r.scope)
              (upsertJournalAsm s r).2 r)
            (upsertJournalAsm s r).2 (parse_issn r.issn))
          (upsertJournalAsm s r).2 (parse_categories r.categories))
        (upsertJournalAsm s r).2 (parse_areas r.areas) from rfl,
      syncAreas_keeps_issn, syncCategories_keeps_issn]
  have hC : syncCategories (syncAsm s r) (upsertJournalAsm s r).2 (parse_categories r.categories)
      = syncAsm s r := by
    refine syncCategories_stable
      (syncIssns
        (syncMetricsAsm
          (syncScope (upsertJournalAsm s r).1 (upsertJournalAsm s r).2 r.scope)
          (upsertJournalAsm s r).2 r)
        (upsertJournalAsm s r).2 (parse_issn r.issn))
      (syncAsm s r) (upsertJournalAsm s r).2 (parse_categories r.categories) ?_ ?_ ?_
    · show (syncAsm s r).categories = _
      rw [show syncAsm s r = syncAreas
          (syncCategories
            (syncIssns
              (syncMetricsAsm
                (syncScope (upsertJournalAsm s r).1 (upsertJournalAsm s r).2 r.scope)
                (upsertJournalAsm s r).2 r)
              (upsertJournalAsm s r).2 (parse_issn r.issn))
            (upsertJournalAsm s r).2 (parse_categories r.categories))
          (upsertJournalAsm s r).2 (parse_areas r.areas) from rfl,
        syncAreas_keeps_categories]
    · show (syncAsm s r).nextCategoryId = _
      rw [show syncAsm s r = syncAreas
          (syncCategories
            (syncIssns
              (syncMetricsAsm
                (syncScope (upsertJournalAsm s r).1 (upsertJournalAsm s r).2 r.scope)
                (upsertJournalAsm s r).2 r)
              (upsertJournalAsm s r).2 (parse_issn r.issn))
            (upsertJournalAsm s r).2 (parse_categories r.categories))
          (upsertJournalAsm s r).2 (parse_areas r.areas) from rfl,
        syncAreas_keeps_nextCategoryId]
    · show (syncAsm s r).journal_categories = _
      rw [show syncAsm s r = syncAreas
          (syncCategories
            (syncIssns
              (syncMetricsAsm
                (syncScope (upsertJournalAsm s r).1 (upsertJournalAsm s r).2 r.scope)
                (upsertJournalAsm s r).2 r)
              (upsertJournalAsm s r).2 (parse_issn r.issn))
            (upsertJournalAsm s r).2 (parse_categories r.categories))
          (upsertJournalAsm s r).2 (parse_areas r.areas) from rfl,
        syncAreas_keeps_journal_categories]
  have hA : syncAreas (syncAsm s r) (upsertJournalAsm s r).2 (parse_areas r.areas)
      = syncAsm s r := by
    exact syncAreas_stable
      (syncCategories
        (syncIssns
          (syncMetricsAsm
            (syncScope (upsertJournalAsm s r).1 (upsertJournalAsm s r).2 r.scope)
            (upsertJournalAsm s r).2 r)
          (upsertJournalAsm s r).2 (parse_issn r.issn))
        (upsertJournalAsm s r).2 (parse_categories r.categories))
      (syncAsm s r) (upsertJournalAsm s r).2 (parse_areas r.areas) rfl rfl rfl
  show syncAreas
      (syncCategories
        (syncIssns
          (syncMetricsAsm
            (syncScope (upsertJournalAsm (syncAsm s r) r).1 (upsertJournalAsm (syncAsm s r) r).2 r.scope)
            (upsertJournalAsm (syncAsm s r) r).2 r)
          (upsertJournalAsm (syncAsm s r) r).2 (parse_issn r.issn))
        (upsertJournalAsm (syncAsm s r) r).2 (parse_categories r.categories))
      (upsertJournalAsm (syncAsm s r) r).2 (parse_areas r.areas) = syncAsm s r
  rw [hJ]
  show syncAreas
      (syncCategories
        (syncIssns
          (syncMetricsAsm (syncScope (syncAsm s r) (upsertJournalAsm s r).2 r.scope)
            (upsertJournalAsm s r).2 r)
          (upsertJournalAsm s r).2 (parse_issn r.issn))
        (upsertJournalAsm s r).2 (parse_categories r.categories))
      (upsertJournalAsm s r).2 (parse_areas r.areas) = syncAsm s r
  rw [hS, hM, hI, hC, hA]

/-! ### Uniqueness invariants of the schema -/

/-- The uniqueness constraints of the relational schema (§3/§6 of the
design: unique `source_id`; one scope/metrics row per journal; unique
`(journal, issn)`, `(journal, category)` and `(journal, area)` pairs). -/
structure WFStore (s : Store) : Prop where
  sids : (s.journals.map JournalRow.source_id).Nodup
  scopes : (s.journal_scopes.map Prod.fst).Nodup
  metrics : (s.journal_metrics.map Prod.fst).Nodup
  issn : s.journal_issn.Nodup
  jcats : (s.journal_categories.map Prod.fst).Nodup
  jareas : s.journal_areas.Nodup

theorem upsertJournalAsm_keeps_scopes (s : Store) (r : AsmJournal) :
    (upsertJournalAsm s r).1.journal_scopes = s.journal_scopes := by
  obtain ⟨jl, nj, i, h⟩ := upsertJournalAsm_frame s r
  rw [h]

theorem upsertJournalAsm_keeps_metrics (s : Store) (r : AsmJournal) :
    (upsertJournalAsm s r).1.journal_metrics = s.journal_metrics := by
  obtain ⟨jl, nj, i, h⟩ := upsertJournalAsm_frame s r
  rw [h]

theorem upsertJournalAsm_keeps_issn (s : Store) (r : AsmJournal) :
    (upsertJournalAsm s r).1.journal_issn = s.journal_issn := by
  obtain ⟨jl, nj, i, h⟩ := upsertJournalAsm_frame s r
  rw [h]

theorem upsertJournalAsm_keeps_jcats (s : Store) (r : AsmJournal) :
    (upsertJournalAsm s r).1.journal_categories = s.journal_categories := by
  obtain ⟨jl, nj, i, h⟩ := upsertJournalAsm_frame s r
  rw [h]

theorem upsertJournalAsm_keeps_jareas (s : Store) (r : AsmJournal) :
    (upsertJournalAsm s r).1.journal_areas = s.journal_areas := by
  obtain ⟨jl, nj, i, h⟩ := upsertJournalAsm_frame s r
  rw [h]

theorem syncScope_keeps_metrics (s : Store) (jid : Nat) (sc : Option String) :
    (syncScope s jid sc).journal_metrics = s.journal_metrics := by
  obtain ⟨sl, h⟩ := syncScope_frame s jid sc
  rw [h]

theorem syncScope_keeps_issn (s : Store) (jid : Nat) (sc : Option String) :
    (syncScope s jid sc).journal_issn = s.journal_issn := by
  obtain ⟨sl, h⟩ := syncScope_frame s jid sc
  rw [h]

theorem syncScope_keeps_jcats (s : Store) (jid : Nat) (sc : Option String) :
    (syncScope s jid sc).journal_categories = s.journal_categories := by
  obtain ⟨sl, h⟩ := syncScope_frame s jid sc
  rw [h]

theorem syncScope_keeps_jareas (s : Store) (jid : Nat) (sc : Option String) :
    (syncScope s jid sc).journal_areas = s.journal_areas := by
  obtain ⟨sl, h⟩ := syncScope_frame s jid sc
  rw [h]

theorem syncMetricsAsm_keeps_issn (s : Store) (jid : Nat) (r : AsmJournal) :
    (syncMetricsAsm s jid r).journal_issn = s.journal_issn := rfl

theorem syncMetricsAsm_keeps_jcats (s : Store) (jid : Nat) (r : AsmJournal) :
    (syncMetricsAsm s jid r).journal_categories = s.journal_categories := rfl

theorem syncMetricsAsm_keeps_jareas (s : Store) (jid : Nat) (r : AsmJournal) :
    (syncMetricsAsm s jid r).journal_areas = s.journal_areas := rfl

theorem syncIssns_keeps_jcats (s : Store) (jid : Nat) (l : List String) :
    (syncIssns s jid l).journal_categories = s.journal_categories := rfl

theorem syncIssns_keeps_jareas (s : Store) (jid : Nat) (l : List String) :
    (syncIssns s jid l).journal_areas = s.journal_areas := rfl

theorem syncCategories_keeps_jareas (s : Store) (jid : Nat) (cats : List (String × Option String)) :
    (syncCategories s jid cats).journal_areas = s.journal_areas := by
  obtain ⟨ct, nc, jc, h⟩ := syncCategories_frame jid cats s
  rw [h]

/-- The source ids of the journals table after the upsert: unchanged on
conflict, extended by the new source id on insert. -/
theorem upsertJournalAsm_sids (s : Store) (r : AsmJournal) (h : (s.journals.map JournalRow.source_id).Nodup) :
    ((upsertJournalAsm s r).1.journals.map JournalRow.source_id).Nodup := by
  cases hf : s.journals.find? (fun row => row.source_id = r.source_id) with
  | some row =>
    have h1 : (upsertJournalAsm s r).1.journals =
        s.journals.map (fun x => if x.source_id = r.source_id then updJournalAsm x r else x) := by
      simp [upsertJournalAsm, hf]
    rw [h1, List.map_map]
    have : (JournalRow.source_id ∘
        (fun x => if x.source_id = r.source_id then updJournalAsm x r else x)) =
        JournalRow.source_id := by
      funext x
      by_cases hx : x.source_id = r.source_id
      · simp [Function.comp, hx, updJournalAsm_source_id]
      · simp [Function.comp, hx]
    rw [this]
    exact h
  | none =>
    have h1 : (upsertJournalAsm s r).1.journals =
        s.journals ++ [newJournalAsm s.nextJournalId r] := by
      simp [upsertJournalAsm, hf]
    rw [h1, List.map_append]
    have hnm : r.source_id ∉ s.journals.map JournalRow.source_id := by
      intro hm
      obtain ⟨x, hx, hxe⟩ := List.mem_map.mp hm
      have := List.find?_eq_none.mp hf x hx
      simp [hxe] at this
    simpa [List.nodup_append, h] using hnm

theorem sid_comp_upd (r : AsmJournal) :
    (JournalRow.source_id ∘
      (fun x => if x.source_id = r.source_id then updJournalAsm x r else x)) =
    JournalRow.source_id := by
  funext x
  by_cases hx : x.source_id = r.source_id
  · simp [Function.comp, hx, updJournalAsm_source_id]
  · simp [Function.comp, hx]

theorem syncAsm_journals_eq (s : Store) (r : AsmJournal) :
    (syncAsm s r).journals = (upsertJournalAsm s r).1.journals := by
  rw [show syncAsm s r = syncAreas
      (syncCategories
        (syncIssns
          (syncMetricsAsm
            (syncScope (upsertJournalAsm s r).1 (upsertJournalAsm s r).2 r.scope)
            (upsertJournalAsm s r).2 r)
          (upsertJournalAsm s r).2 (parse_issn r.issn))
        (upsertJournalAsm s r).2 (parse_categories r.categories))
      (upsertJournalAsm s r).2 (parse_areas r.areas) from rfl,
    syncAreas_keeps_journals, syncCategories_keeps_journals, syncIssns_keeps_journals,
    syncMetricsAsm_keeps_journals, syncScope_keeps_journals]

theorem syncAsm_scopes_eq (s : Store) (r : AsmJournal) :
    (syncAsm s r).journal_scopes =
      (syncScope (upsertJournalAsm s r).1 (upsertJournalAsm s r).2 r.scope).journal_scopes := by
  rw [show syncAsm s r = syncAreas
      (syncCategories
        (syncIssns
          (syncMetricsAsm
            (syncScope (upsertJournalAsm s r).1 (upsertJournalAsm s r).2 r.scope)
            (upsertJournalAsm s r).2 r)
          (upsertJournalAsm s r).2 (parse_issn r.issn))
        (upsertJournalAsm s r).2 (parse_categories r.categories))
      (upsertJournalAsm s r).2 (parse_areas r.areas) from rfl,
    syncAreas_keeps_scopes, syncCategories_keeps_scopes, syncIssns_keeps_scopes,
    syncMetricsAsm_keeps_scopes]

theorem syncAsm_metrics_eq (s : Store) (r : AsmJournal) :
    (syncAsm s r).journal_metrics =
      upsertKV s.journal_metrics (upsertJournalAsm s r).2 (asmMetricsRow r) := by
  rw [show syncAsm s r = syncAreas
      (syncCategories
        (syncIssns
          (syncMetricsAsm
            (syncScope (upsertJournalAsm s r).1 (upsertJournalAsm s r).2 r.scope)
            (upsertJournalAsm s r).2 r)
          (upsertJournalAsm s r).2 (parse_issn r.issn))
        (upsertJournalAsm s r).2 (parse_categories r.categories))
      (upsertJournalAsm s r).2 (parse_areas r.areas) from rfl,
    syncAreas_keeps_metrics, syncCategories_keeps_metrics, syncIssns_keeps_metrics]
  show upsertKV (syncScope (upsertJournalAsm s r).1 (upsertJournalAsm s r).2 r.scope).journal_metrics
    (upsertJournalAsm s r).2 (asmMetricsRow r) = _
  rw [syncScope_keeps_metrics, upsertJournalAsm_keeps_metrics]

theorem syncAsm_issn_eq (s : Store) (r : AsmJournal) :
    (syncAsm s r).journal_issn =
      foldInsertAbs s.journal_issn
        ((parse_issn r.issn).map (fun i => ((upsertJournalAsm s r).2, i))) := by
  rw [show syncAsm s r = syncAreas
      (syncCategories
        (syncIssns
          (syncMetricsAsm
            (syncScope (upsertJournalAsm s r).1 (upsertJournalAsm s r).2 r.scope)
            (upsertJournalAsm s r).2 r)
          (upsertJournalAsm s r).2 (parse_issn r.issn))
        (upsertJournalAsm s r).2 (parse_categories r.categories))
      (upsertJournalAsm s r).2 (parse_areas r.areas) from rfl,
    syncAreas_keeps_issn, syncCategories_keeps_issn]
  show foldInsertAbs
      (syncMetricsAsm
        (syncScope (upsertJournalAsm s r).1 (upsertJournalAsm s r).2 r.scope)
        (upsertJournalAsm s r).2 r).journal_issn _ = _
  rw [syncMetricsAsm_keeps_issn, syncScope_keeps_issn, upsertJournalAsm_keeps_issn]

theorem syncCategories_jcats_eq (s : Store) (jid : Nat) (cats : List (String × Option String)) :
    (syncCategories s jid cats).journal_categories =
      foldUpsert s.journal_categories
        (((catResolveList s.categories s.nextCategoryId cats).2.2).map
          (fun e => ((jid, e.1), e.2))) := by
  rw [syncCategories_factor]

theorem syncAreas_jareas_eq (s : Store) (jid : Nat) (areas : List String) :
    (syncAreas s jid areas).journal_areas =
      foldInsertAbs s.journal_areas
        (((areaResolveList s.subject_areas s.nextAreaId areas).2.2).map (fun a => (jid, a))) := by
  rw [syncAreas_factor]

theorem syncAsm_jcats_nodup (s : Store) (r : AsmJournal)
    (h : (s.journal_categories.map Prod.fst).Nodup) :
    ((syncAsm s r).journal_categories.map Prod.fst).Nodup := by
  rw [show syncAsm s r = syncAreas
      (syncCategories
        (syncIssns
          (syncMetricsAsm
            (syncScope (upsertJournalAsm s r).1 (upsertJournalAsm s r).2 r.scope)
            (upsertJournalAsm s r).2 r)
          (upsertJournalAsm s r).2 (parse_issn r.issn))
        (upsertJournalAsm s r).2 (parse_categories r.categories))
      (upsertJournalAsm s r).2 (parse_areas r.areas) from rfl,
    syncAreas_keeps_journal_categories, syncCategories_jcats_eq]
  refine nodup_keys_foldUpsert _ ?_
  rw [show (syncIssns
      (syncMetricsAsm
        (syncScope (upsertJournalAsm s r).1 (upsertJournalAsm s r).2 r.scope)
        (upsertJournalAsm s r).2 r)
      (upsertJournalAsm s r).2 (parse_issn r.issn)).journal_categories =
    (syncMetricsAsm
      (syncScope (upsertJournalAsm s r).1 (upsertJournalAsm s r).2 r.scope)
      (upsertJournalAsm s r).2 r).journal_categories from rfl,
    syncMetricsAsm_keeps_jcats, syncScope_keeps_jcats, upsertJournalAsm_keeps_jcats]
  exact h

theorem syncAsm_jareas_nodup (s : Store) (r : AsmJournal)
    (h : s.journal_areas.Nodup) : (syncAsm s r).journal_areas.Nodup := by
  rw [show syncAsm s r = syncAreas
      (syncCategories
        (syncIssns
          (syncMetricsAsm
            (syncScope (upsertJournalAsm s r).1 (upsertJournalAsm s r).2 r.scope)
            (upsertJournalAsm s r).2 r)
          (upsertJournalAsm s r).2 (parse_issn r.issn))
        (upsertJournalAsm s r).2 (parse_categories r.categories))
      (upsertJournalAsm s r).2 (parse_areas r.areas) from rfl,
    syncAreas_jareas_eq]
  refine nodup_foldInsertAbs _ ?_
  rw [syncCategories_keeps_jareas, syncIssns_keeps_jareas, syncMetricsAsm_keeps_jareas,
    syncScope_keeps_jareas, upsertJournalAsm_keeps_jareas]
  exact h

theorem syncScope_scopes_nodup (s : Store) (jid : Nat) (sc : Option String)
    (h : (s.journal_scopes.map Prod.fst).Nodup) :
    ((syncScope s jid sc).journal_scopes.map Prod.fst).Nodup := by
  cases sc with
  | none => exact h
  | some t =>
    by_cases he : t = ""
    · simpa [syncScope, he] using h
    · show ((if t = "" then s else
        { s with journal_scopes := upsertKV s.journal_scopes jid t }).journal_scopes.map Prod.fst).Nodup
      rw [if_neg he]
      exact nodup_keys_upsertKV jid t h

/-- Every uniqueness constraint of the schema is preserved by one
synchronisation pass. -/
theorem syncAsm_wf (s : Store) (r : AsmJournal) (h : WFStore s) : WFStore (syncAsm s r) := by
  refine ⟨?_, ?_, ?_, ?_, ?_, ?_⟩
  · rw [syncAsm_journals_eq]
    exact upsertJournalAsm_sids s r h.sids
  · rw [syncAsm_scopes_eq]
    refine syncScope_scopes_nodup _ _ _ ?_
    rw [upsertJournalAsm_keeps_scopes]
    exact h.scopes
  · rw [syncAsm_metrics_eq]
    exact nodup_keys_upsertKV _ _ h.metrics
  · rw [syncAsm_issn_eq]
    exact nodup_foldInsertAbs _ h.issn
  · exact syncAsm_jcats_nodup s r h.jcats
  · exact syncAsm_jareas_nodup s r h.jareas

theorem journalIdOf_syncAsm (s : Store) (r : AsmJournal) :
    journalIdOf (syncAsm s r) r.source_id = some ((upsertJournalAsm s r).2) := by
  unfold journalIdOf
  rw [syncAsm_journals_eq]
  cases hf : s.journals.find? (fun row => row.source_id = r.source_id) with
  | some row =>
    have h1 : (upsertJournalAsm s r).1.journals =
        s.journals.map (fun x => if x.source_id = r.source_id then updJournalAsm x r else x) := by
      simp [upsertJournalAsm, hf]
    have h2 : (upsertJournalAsm s r).2 = row.id := by
      simp [upsertJournalAsm, hf]
    have hpg : (fun x : JournalRow => decide (x.source_id = r.source_id)) ∘
        (fun x => if x.source_id = r.source_id then updJournalAsm x r else x) =
        (fun x : JournalRow => decide (x.source_id = r.source_id)) := by
      funext x
      by_cases h : x.source_id = r.source_id
      · simp [Function.comp, h, updJournalAsm_source_id]
      · simp [Function.comp, h]
    have hprow : row.source_id = r.source_id := by
      have := List.find?_some hf
      simpa using this
    rw [h1, h2, List.find?_map, hpg, hf]
    simp [hprow, updJournalAsm_id]
  | none =>
    have h1 : (upsertJournalAsm s r).1.journals =
        s.journals ++ [newJournalAsm s.nextJournalId r] := by
      simp [upsertJournalAsm, hf]
    have h2 : (upsertJournalAsm s r).2 = s.nextJournalId := by
      simp [upsertJournalAsm, hf]
    rw [h1, h2, List.find?_append, hf]
    simp [newJournalAsm]

theorem syncAsm_sid_count (s : Store) (r : AsmJournal) (h : WFStore s) :
    ((syncAsm s r).journals.map JournalRow.source_id).count r.source_id = 1 := by
  rw [syncAsm_journals_eq]
  cases hf : s.journals.find? (fun row => row.source_id = r.source_id) with
  | some row =>
    have h1 : (upsertJournalAsm s r).1.journals =
        s.journals.map (fun x => if x.source_id = r.source_id then updJournalAsm x r else x) := by
      simp [upsertJournalAsm, hf]
    rw [h1, List.map_map, sid_comp_upd]
    have hprow : row.source_id = r.source_id := by
      have := List.find?_some hf
      simpa using this
    have hmem : r.source_id ∈ s.journals.map JournalRow.source_id :=
      List.mem_map.mpr ⟨row, List.mem_of_find?_eq_some hf, hprow⟩
    have hle := List.nodup_iff_count_le_one.mp h.sids r.source_id
    have hge : 0 < (s.journals.map JournalRow.source_id).count r.source_id :=
      List.count_pos_iff.mpr hmem
    omega
  | none =>
    have h1 : (upsertJournalAsm s r).1.journals =
        s.journals ++ [newJournalAsm s.nextJournalId r] := by
      simp [upsertJournalAsm, hf]
    rw [h1, List.map_append, List.count_append]
    have hnm : r.source_id ∉ s.journals.map JournalRow.source_id := by
      intro hm
      obtain ⟨x, hx, hxe⟩ := List.mem_map.mp hm
      have := List.find?_eq_none.mp hf x hx
      simp [hxe] at this
    rw [List.count_eq_zero.mpr hnm]
    simp [newJournalAsm]

theorem syncAsm_metrics_count (s : Store) (r : AsmJournal) (h : WFStore s) :
    (((syncAsm s r).journal_metrics.map Prod.fst).count ((upsertJournalAsm s r).2)) = 1 := by
  have hnd : ((syncAsm s r).journal_metrics.map Prod.fst).Nodup := (syncAsm_wf s r h).metrics
  have hck : containsKey (syncAsm s r).journal_metrics ((upsertJournalAsm s r).2) = true := by
    rw [syncAsm_metrics_eq]
    exact containsKey_upsertKV_self _ _ _
  obtain ⟨e, he, hek⟩ := containsKey_iff.mp hck
  have hmem : (upsertJournalAsm s r).2 ∈ (syncAsm s r).journal_metrics.map Prod.fst :=
    List.mem_map.mpr ⟨e, he, hek⟩
  have hle := List.nodup_iff_count_le_one.mp hnd ((upsertJournalAsm s r).2)
  have hge := List.count_pos_iff.mpr hmem
  omega

/-- Claim C5, assembled: synchronising the same record twice from any
store satisfying the schema's uniqueness constraints leaves exactly one
journals row for the record's source id, at most one scope row and
exactly one metrics row for its journal id, no duplicate
(journal, category) / (journal, area) / (journal, issn) pairs, and the
second application changes nothing at all. -/
theorem syncAsm_idempotent_full (s : Store) (r : AsmJournal) (h : WFStore s) :
    syncAsm (syncAsm s r) r = syncAsm s r ∧
    ((syncAsm s r).journals.map JournalRow.source_id).count r.source_id = 1 ∧
    (∃ j, journalIdOf (syncAsm s r) r.source_id = some j ∧
      ((syncAsm s r).journal_scopes.map Prod.fst).count j ≤ 1 ∧
      ((syncAsm s r).journal_metrics.map Prod.fst).count j = 1) ∧
    ((syncAsm s r).journal_categories.map Prod.fst).Nodup ∧
    (syncAsm s r).journal_areas.Nodup ∧
    (syncAsm s r).journal_issn.Nodup := by
  refine ⟨syncAsm_idem s r, syncAsm_sid_count s r h, ?_, (syncAsm_wf s r h).jcats,
    (syncAsm_wf s r h).jareas, (syncAsm_wf s r h).issn⟩
  refine ⟨(upsertJournalAsm s r).2, journalIdOf_syncAsm s r, ?_, syncAsm_metrics_count s r h⟩
  exact List.nodup_iff_count_le_one.mp (syncAsm_wf s r h).scopes _

/-! ## BMJ scraper metrics upsert (C1) -/

/-- Payload lookup by key, `SELECT value WHERE key = ..`. -/
def lookupKV [DecidableEq κ] (t : List (κ × α)) (k : κ) : Option α :=
  (t.find? (fun e => e.1 = k)).map Prod.snd

/-- The metric columns sent by the BMJ scraper
(`scripts/data-processing/scrape_bmj_journals.py` line 212). -/
structure BmjMetrics where
  sjr : Option Rat
  sjr_quartile : Option String
  h_index : Option Int
deriving DecidableEq, Repr

/-- SQL `COALESCE(a, b)`. -/
def coalesce (a b : Option α) : Option α :=
  match a with
  | some x => some x
  | none => b

/-- The `DO UPDATE SET` arm of the BMJ metrics upsert
(`scripts/data-processing/scrape_bmj_journals.py` lines 214-218):
`col = COALESCE(EXCLUDED.col, journal_metrics.col)` for the three sent
columns; the remaining columns are not listed and keep their values
(`updated_at` is not modelled). -/
def mergeBmj (old : MetricsRow) (m : BmjMetrics) : MetricsRow :=
  { old with
    sjr := coalesce m.sjr old.sjr
    sjr_quartile := coalesce m.sjr_quartile old.sjr_quartile
    h_index := coalesce m.h_index old.h_index }

/-- The BMJ metrics upsert (`scripts/data-processing/scrape_bmj_journals.py`
lines 211-219): insert the three sent columns (the unlisted columns get
their NULL defaults), or COALESCE-merge into the existing row. -/
def bmjUpsertMetrics (t : List (Nat × MetricsRow)) (jid : Nat) (m : BmjMetrics) :
    List (Nat × MetricsRow) :=
  if containsKey t jid then
    t.map (fun e => if e.1 = jid then (jid, mergeBmj e.2 m) else e)
  else
    t ++ [(jid, ⟨m.sjr, m.sjr_quartile, m.h_index, none, none, none, none⟩)]

theorem lookupKV_upsertKV_self [DecidableEq κ] (t : List (κ × α)) (k : κ) (v : α) :
    lookupKV (upsertKV t k v) k = some v := by
  by_cases hc : containsKey t k = true
  · rw [upsertKV_of_contains v hc]
    unfold lookupKV
    have hpg : (fun e : κ × α => decide (e.1 = k)) ∘
        (fun e => if e.1 = k then (k, v) else e) = (fun e : κ × α => decide (e.1 = k)) := by
      funext e
      by_cases h : e.1 = k
      · simp [Function.comp, h]
      · simp [Function.comp, h]
    rw [List.find?_map, hpg]
    obtain ⟨e, he, hek⟩ := containsKey_iff.mp hc
    have hsome : (t.find? (fun e => e.1 = k)).isSome := by
      rcases hfe : t.find? (fun e : κ × α => decide (e.1 = k)) with _ | e2
      · exact absurd (by simpa using List.find?_eq_none.mp hfe e he) (by simp [hek])
      · simp
    obtain ⟨e0, he0⟩ := Option.isSome_iff_exists.mp hsome
    have he0k : e0.1 = k := by simpa using List.find?_some he0
    rw [he0]
    simp [he0k]
  · rw [upsertKV_of_not v hc]
    unfold lookupKV
    rw [List.find?_append, List.find?_eq_none.mpr ?_]
    · simp
    · intro x hx
      simpa using containsKey_false (Bool.not_eq_true _ ▸ hc) x hx

theorem lookupKV_bmjUpsert (t : List (Nat × MetricsRow)) (jid : Nat) (m : BmjMetrics)
    (old : MetricsRow) (hold : lookupKV t jid = some old) :
    lookupKV (bmjUpsertMetrics t jid m) jid = some (mergeBmj old m) := by
  obtain ⟨e0, hf0, he0⟩ : ∃ e0, t.find? (fun e => e.1 = jid) = some e0 ∧ e0.2 = old := by
    unfold lookupKV at hold
    rcases hfe : t.find? (fun e : Nat × MetricsRow => decide (e.1 = jid)) with _ | e0
    · rw [hfe] at hold
      exact absurd hold (by simp)
    · rw [hfe] at hold
      exact ⟨e0, rfl, by simpa using hold⟩
  have he0k : e0.1 = jid := by simpa using List.find?_some hf0
  have hc : containsKey t jid = true :=
    containsKey_iff.mpr ⟨e0, List.mem_of_find?_eq_some hf0, he0k⟩
  unfold bmjUpsertMetrics
  rw [if_pos hc]
  unfold lookupKV
  have hpg : (fun e : Nat × MetricsRow => decide (e.1 = jid)) ∘
      (fun e => if e.1 = jid then (jid, mergeBmj e.2 m) else e) =
      (fun e : Nat × MetricsRow => decide (e.1 = jid)) := by
    funext e
    by_cases h : e.1 = jid
    · simp [Function.comp, h]
    · simp [Function.comp, h]
  rw [List.find?_map, hpg, hf0]
  simp [he0k, he0]

/-- C1, amended: the BMJ scraper's metrics upsert is fill-forward — an
incoming null keeps the stored value and an incoming non-null value
replaces it, for each of the three sent columns — while the ASM
importer's metrics upsert overwrites the whole row with the incoming
values, nulls included. -/
theorem metrics_upsert_policies (t : List (Nat × MetricsRow)) (jid : Nat) (m : BmjMetrics)
    (old : MetricsRow) (hold : lookupKV t jid = some old) :
    (∃ new, lookupKV (bmjUpsertMetrics t jid m) jid = some new ∧
      (m.sjr = none → new.sjr = old.sjr) ∧
      (∀ v, m.sjr = some v → new.sjr = some v) ∧
      (m.sjr_quartile = none → new.sjr_quartile = old.sjr_quartile) ∧
      (∀ v, m.sjr_quartile = some v → new.sjr_quartile = some v) ∧
      (m.h_index = none → new.h_index = old.h_index) ∧
      (∀ v, m.h_index = some v → new.h_index = some v)) ∧
    (∀ row : MetricsRow, lookupKV (upsertKV t jid row) jid = some row) := by
  refine ⟨⟨mergeBmj old m, lookupKV_bmjUpsert t jid m old hold, ?_, ?_, ?_, ?_, ?_, ?_⟩,
    fun row => lookupKV_upsertKV_self t jid row⟩
  · intro h
    simp [mergeBmj, coalesce, h]
  · intro v h
    simp [mergeBmj, coalesce, h]
  · intro h
    simp [mergeBmj, coalesce, h]
  · intro v h
    simp [mergeBmj, coalesce, h]
  · intro h
    simp [mergeBmj, coalesce, h]
  · intro v h
    simp [mergeBmj, coalesce, h]

/-! ## Transaction model (C4)

psycopg2 connection semantics: statements run against an in-transaction
working state; a statement error aborts the transaction, and every later
statement in it fails (`InFailedSqlTransaction`) until a rollback;
`COMMIT` of an aborted transaction rolls back. -/

structure Conn where
  committed : Store
  working : Store
  txerr : Option String
deriving DecidableEq, Repr

/-- A connection with no open work. -/
def Conn.clean (s : Store) : Conn := ⟨s, s, none⟩

/-- `conn.commit()`: publish the working state, or roll back if the
transaction is aborted (Postgres turns COMMIT of an aborted transaction
into ROLLBACK). -/
def commitConn (c : Conn) : Conn :=
  match c.txerr with
  | some _ => ⟨c.committed, c.committed, none⟩
  | none => ⟨c.working, c.working, none⟩

/-- `conn.rollback()`: discard the working state and clear the aborted
flag. -/
def rollbackConn (c : Conn) : Conn := ⟨c.committed, c.committed, none⟩

/-- `cur.execute(..)`: no-op on an aborted transaction (the statement
raises and the first error is what the surrounding handler reports); on
success update the working state; on failure mark the transaction
aborted.  Loops of non-failing statements are batched into one step. -/
def execStmt (w : Store → Except String Store) (c : Conn) : Conn :=
  match c.txerr with
  | some _ => c
  | none =>
    match w c.working with
    | .ok st => ⟨c.committed, st, none⟩
    | .error e => ⟨c.committed, c.working, some e⟩

/-- Modelled from the spec: the schema DDL is not under `scripts/`, so
its constraints are taken from §3 — `sjrQuartile` is Q1..Q4 or null. -/
def chkQuartile (q : Option String) : Bool :=
  match q with
  | none => true
  | some v => v == "Q1" || v == "Q2" || v == "Q3" || v == "Q4"

/-- The journals upsert statement of the ASM import as a fallible
statement.  Modelled from the spec: `title` is required (§3), so a
record without one raises a not-null violation. -/
def wJournalsAsm (r : AsmJournal) (s : Store) : Except String Store :=
  if r.title = none then .error "NotNullViolation: null value in column title"
  else .ok (upsertJournalAsm s r).1

/-- The metrics insert statement of the ASM import as a fallible
statement: the raw `sjr_quartile` string is sent unvalidated, so a value
outside Q1..Q4 violates the quartile constraint (see `chkQuartile`). -/
def wMetricsAsm (jid : Nat) (r : AsmJournal) (s : Store) : Except String Store :=
  if chkQuartile r.sjr_quartile then .ok (syncMetricsAsm s jid r)
  else .error "CheckViolation: sjr_quartile"

/-- The `try` body of the ASM import loop
(`scripts/import_asm_journals.py` lines 114-216) over a connection. -/
def bodyAsm (r : AsmJournal) (c : Conn) : Conn :=
  let c1 := execStmt (wJournalsAsm r) c
  let jid := (journalIdOf c1.working r.source_id).getD 0
  let c2 := execStmt (fun s => .ok (syncScope s jid r.scope)) c1
  let c3 := execStmt (wMetricsAsm jid r) c2
  let c4 := execStmt (fun s => .ok (syncIssns s jid (parse_issn r.issn))) c3
  let c5 := execStmt (fun s => .ok (syncCategories s jid (parse_categories r.categories))) c4
  execStmt (fun s => .ok (syncAreas s jid (parse_areas r.areas))) c5

/-- One iteration of the ASM import loop
(`scripts/import_asm_journals.py` lines 108-225): skip records without a
source id; otherwise run the body and `conn.commit()`, or on any
exception report it, `conn.rollback()` and continue. -/
def asmProcess (acc : Conn × List String) (r : AsmJournal) : Conn × List String :=
  if r.source_id = "" then acc
  else
    let c2 := bodyAsm r acc.1
    match c2.txerr with
    | some e => (rollbackConn c2, acc.2 ++ [e])
    | none => (commitConn c2, acc.2)

/-- The ASM import batch (`scripts/import_asm_journals.py` `main`):
final committed store and the per-record error reports. -/
def import_asm_main (s : Store) (rs : List AsmJournal) : Store × List String :=
  let res := rs.foldl asmProcess (Conn.clean s, [])
  (res.1.committed, res.2)

theorem journalIdOf_upsert (s : Store) (r : AsmJournal) :
    journalIdOf (upsertJournalAsm s r).1 r.source_id = some ((upsertJournalAsm s r).2) := by
  unfold journalIdOf
  cases hf : s.journals.find? (fun row => row.source_id = r.source_id) with
  | some row =>
    have h1 : (upsertJournalAsm s r).1.journals =
        s.journals.map (fun x => if x.source_id = r.source_id then updJournalAsm x r else x) := by
      simp [upsertJournalAsm, hf]
    have h2 : (upsertJournalAsm s r).2 = row.id := by
      simp [upsertJournalAsm, hf]
    have hpg : (fun x : JournalRow => decide (x.source_id = r.source_id)) ∘
        (fun x => if x.source_id = r.source_id then updJournalAsm x r else x) =
        (fun x : JournalRow => decide (x.source_id = r.source_id)) := by
      funext x
      by_cases h : x.source_id = r.source_id
      · simp [Function.comp, h, updJournalAsm_source_id]
      · simp [Function.comp, h]
    have hprow : row.source_id = r.source_id := by
      have := List.find?_some hf
      simpa using this
    rw [h1, h2, List.find?_map, hpg, hf]
    simp [hprow, updJournalAsm_id]
  | none =>
    have h1 : (upsertJournalAsm s r).1.journals =
        s.journals ++ [newJournalAsm s.nextJournalId r] := by
      simp [upsertJournalAsm, hf]
    have h2 : (upsertJournalAsm s r).2 = s.nextJournalId := by
      simp [upsertJournalAsm, hf]
    rw [h1, h2, List.find?_append, hf]
    simp [newJournalAsm]

theorem bodyAsm_ok (r : AsmJournal) (s : Store)
    (h1 : ¬r.title = none) (h2 : chkQuartile r.sjr_quartile = true) :
    bodyAsm r (Conn.clean s) = ⟨s, syncAsm s r, none⟩ := by
  have e1 : execStmt (wJournalsAsm r) (Conn.clean s) = ⟨s, (upsertJournalAsm s r).1, none⟩ := by
    simp [execStmt, Conn.clean, wJournalsAsm, h1]
  unfold bodyAsm
  rw [e1]
  simp only [journalIdOf_upsert, Option.getD_some, execStmt, wMetricsAsm, h2, if_true]
  rfl

theorem bodyAsm_fail_title (r : AsmJournal) (s : Store) (h1 : r.title = none) :
    bodyAsm r (Conn.clean s) =
      ⟨s, s, some "NotNullViolation: null value in column title"⟩ := by
  have e1 : execStmt (wJournalsAsm r) (Conn.clean s) =
      ⟨s, s, some "NotNullViolation: null value in column title"⟩ := by
    simp [execStmt, Conn.clean, wJournalsAsm, h1]
  unfold bodyAsm
  rw [e1]
  rfl

theorem bodyAsm_fail_quartile (r : AsmJournal) (s : Store)
    (h1 : ¬r.title = none) (h2 : ¬chkQuartile r.sjr_quartile = true) :
    bodyAsm r (Conn.clean s) =
      ⟨s, syncScope (upsertJournalAsm s r).1 (upsertJournalAsm s r).2 r.scope,
        some "CheckViolation: sjr_quartile"⟩ := by
  have e1 : execStmt (wJournalsAsm r) (Conn.clean s) = ⟨s, (upsertJournalAsm s r).1, none⟩ := by
    simp [execStmt, Conn.clean, wJournalsAsm, h1]
  have h2f : chkQuartile r.sjr_quartile = false := by
    simpa using h2
  unfold bodyAsm
  rw [e1]
  simp only [journalIdOf_upsert, Option.getD_some, execStmt, wMetricsAsm, h2f,
    Bool.false_eq_true, if_false]

/-- C4, amended: the ASM importer is per-record atomic — when any step
of a record's sync fails, the handler rolls the transaction back, so the
committed store and the connection are exactly as if the record had
never been processed, with the failure reported and the loop continuing
on the same connection; on success the record's whole sync is
committed. -/
theorem asm_per_record_atomicity (s : Store) (r : AsmJournal) (errs : List String)
    (hsid : ¬r.source_id = "") :
    ((r.title = none ∨ chkQuartile r.sjr_quartile = false) →
      ∃ e, asmProcess (Conn.clean s, errs) r = (Conn.clean s, errs ++ [e])) ∧
    (¬r.title = none → chkQuartile r.sjr_quartile = true →
      asmProcess (Conn.clean s, errs) r = (Conn.clean (syncAsm s r), errs)) := by
  constructor
  · intro hbad
    rcases hbad with ht | hq
    · refine ⟨"NotNullViolation: null value in column title", ?_⟩
      unfold asmProcess
      rw [if_neg hsid]
      rw [show bodyAsm r (Conn.clean s, errs).1 = bodyAsm r (Conn.clean s) from rfl,
        bodyAsm_fail_title r s ht]
      rfl
    · by_cases ht : r.title = none
      · refine ⟨"NotNullViolation: null value in column title", ?_⟩
        unfold asmProcess
        rw [if_neg hsid]
        rw [show bodyAsm r (Conn.clean s, errs).1 = bodyAsm r (Conn.clean s) from rfl,
          bodyAsm_fail_title r s ht]
        rfl
      · refine ⟨"CheckViolation: sjr_quartile", ?_⟩
        unfold asmProcess
        rw [if_neg hsid]
        rw [show bodyAsm r (Conn.clean s, errs).1 = bodyAsm r (Conn.clean s) from rfl,
          bodyAsm_fail_quartile r s ht (by simp [hq])]
        rfl
  · intro ht hq
    unfold asmProcess
    rw [if_neg hsid]
    rw [show bodyAsm r (Conn.clean s, errs).1 = bodyAsm r (Conn.clean s) from rfl,
      bodyAsm_ok r s ht hq]
    rfl

/-! ### The JSON restore importer (`scripts/data-processing/import_from_json.py`) -/

/-- One record of the `journals` array of `database_export.json` (the
shape `export_db_to_json.py` writes; the nested `metrics` object is
flattened here). -/
structure JsonJournal where
  id : Nat
  source_id : String
  title : Option String
  publisher : Option String
  country : Option String
  open_access : Bool
  coverage : Option String
  scimago_rank : Option Int
  scope_text : Option String
  sjr : Option Rat
  sjr_quartile : Option String
  h_index : Option Int
  total_docs_2024 : Option Int
  total_docs_3years : Option Int
  citations_per_doc : Option Rat
  total_citations_3years : Option Int
  issns : List String
  categories : List (String × Option String)
  areas : List String
deriving DecidableEq, Repr

/-- The journals row the JSON import sends
(`scripts/data-processing/import_from_json.py` lines 76-96): the
surrogate id comes from the file. -/
def jsonRow (r : JsonJournal) : JournalRow :=
  ⟨r.id, r.source_id, r.title, r.publisher, r.country, r.open_access,
   r.coverage, r.scimago_rank⟩

/-- `INSERT INTO journals (id, ..) ON CONFLICT (id) DO UPDATE SET ..`
as a fallible statement: a second row with the same `source_id` under a
different `id` violates the unique `source_id` constraint (the
constraint is witnessed in-source by `ON CONFLICT (source_id)` in
`import_asm_journals.py`); `title` not-null is modelled from the spec
(§3). -/
def wJournalsJson (r : JsonJournal) (s : Store) : Except String Store :=
  if r.title = none then .error "NotNullViolation: null value in column title"
  else if s.journals.any (fun row => row.id ≠ r.id ∧ row.source_id = r.source_id) then
    .error "UniqueViolation: journals_source_id_key"
  else if s.journals.any (fun row => row.id = r.id) then
    .ok { s with journals := s.journals.map (fun x => if x.id = r.id then jsonRow r else x) }
  else
    .ok { s with journals := s.journals ++ [jsonRow r] }

/-- The metrics row the JSON import sends (lines 108-129). -/
def jsonMetricsRow (r : JsonJournal) : MetricsRow :=
  ⟨r.sjr, r.sjr_quartile, r.h_index, r.total_docs_2024, r.total_docs_3years,
   r.citations_per_doc, r.total_citations_3years⟩

/-- The metrics upsert of the JSON import as a fallible statement
(quartile constraint as in `chkQuartile`). -/
def wMetricsJson (r : JsonJournal) (s : Store) : Except String Store :=
  if chkQuartile r.sjr_quartile then
    .ok { s with journal_metrics := upsertKV s.journal_metrics r.id (jsonMetricsRow r) }
  else .error "CheckViolation: sjr_quartile"

/-- The category-link loop of the JSON import (lines 139-148):
`SELECT id FROM categories WHERE name = ..`; link upsert when found,
silently skipped otherwise — no resolve-or-create here. -/
def syncCatsJson (s : Store) (jid : Nat) : List (String × Option String) → Store
  | [] => s
  | (n, q) :: rest =>
    match s.categories.find? (fun e => e.2 = n) with
    | some e =>
      syncCatsJson { s with journal_categories := upsertKV s.journal_categories (jid, e.1) q }
        jid rest
    | none => syncCatsJson s jid rest

/-- The area-link loop of the JSON import (lines 150-159). -/
def syncAreasJson (s : Store) (jid : Nat) : List String → Store
  | [] => s
  | n :: rest =>
    match s.subject_areas.find? (fun e => e.2 = n) with
    | some e =>
      syncAreasJson { s with journal_areas := insertAbs s.journal_areas (jid, e.1) } jid rest
    | none => syncAreasJson s jid rest

/-- The `try` body of the JSON import's journal loop (lines 74-159). -/
def bodyJson (r : JsonJournal) (c : Conn) : Conn :=
  let c1 := execStmt (wJournalsJson r) c
  let c2 := execStmt (fun s => .ok (syncScope s r.id r.scope_text)) c1
  let c3 := execStmt (wMetricsJson r) c2
  let c4 := execStmt (fun s =>
    .ok { s with journal_issn := foldInsertAbs s.journal_issn (r.issns.map (fun i => (r.id, i))) }) c3
  let c5 := execStmt (fun s => .ok (syncCatsJson s r.id r.categories)) c4
  execStmt (fun s => .ok (syncAreasJson s r.id r.areas)) c5

/-- One iteration of the JSON import's journal loop (lines 73-167): the
`except` handler only prints and continues — it performs NO rollback, so
after a failed record the transaction stays aborted and every statement
of every later record raises `InFailedSqlTransaction`. -/
def jsonProcess (acc : Conn × List String) (r : JsonJournal) : Conn × List String :=
  match acc.1.txerr with
  | some _ =>
    (acc.1, acc.2 ++ ["InFailedSqlTransaction: commands ignored until end of transaction block"])
  | none =>
    let c2 := bodyJson r acc.1
    match c2.txerr with
    | some e => (c2, acc.2 ++ [e])
    | none => (c2, acc.2)

/-- Step 5 of `import_database` (`scripts/data-processing/import_from_json.py`
lines 71-171): the journal loop runs in a single transaction — there is
no per-record commit — and the only `conn.commit()` is after the whole
loop (line 171), which on an aborted transaction rolls back.  The store
argument is the committed state left by the TRUNCATE and the committed
dictionary imports of steps 2-4. -/
def import_from_json_journals (s : Store) (rs : List JsonJournal) : Store × List String :=
  let res := rs.foldl jsonProcess (Conn.clean s, [])
  ((commitConn res.1).committed, res.2)

/-! ## Final JSON database build (`scripts/create_database.py`, C7) -/

/-- A record of the cleaned journal JSON, restricted to the keys
`create_database_entry` reads; a missing key is `none`. -/
structure CleanJournal where
  source_id : Option String
  title : Option String
  issn_list : Option (List String)
  open_access : Bool
  sjr : Option Rat
  sjr_quartile : Option String
  h_index : Option Int
  total_docs_2024 : Option Int
  total_docs_3years : Option Int
  citations_per_doc : Option Rat
  total_citations_3years : Option Int
  scope : Option String
  categories_parsed : Option (List (String × Option String))
  areas_list : Option (List String)
  country : Option String
  coverage : Option String
  rank : Option Int
deriving DecidableEq, Repr

structure DbMetrics where
  sjr : Option Rat
  sjrQuartile : Option String
  hIndex : Option Int
  totalDocs2024 : Option Int
  totalDocs3Years : Option Int
  citationsPerDoc : Option Rat
  totalCitations3Years : Option Int
deriving DecidableEq, Repr

/-- The dict built by `create_database_entry`
(`scripts/create_database.py` lines 15-38).  Every key, `rank`
included, is always materialised — `rank` holds `None` when the source
record has no rank. -/
structure DbEntry where
  id : Option String
  title : Option String
  issn : List String
  publisher : String
  openAccess : Bool
  metrics : DbMetrics
  scope : String
  categories : List (String × Option String)
  areas : List String
  country : Option String
  coverage : Option String
  rank : Option Int
deriving DecidableEq, Repr

/-- `create_database_entry` (`scripts/create_database.py` lines 15-38). -/
def create_database_entry (j : CleanJournal) : DbEntry :=
  { id := j.source_id
    title := j.title
    issn := j.issn_list.getD []
    publisher := "World Scientific"
    openAccess := j.open_access
    metrics := ⟨j.sjr, j.sjr_quartile, j.h_index, j.total_docs_2024, j.total_docs_3years,
      j.citations_per_doc, j.total_citations_3years⟩
    scope := j.scope.getD ""
    categories := j.categories_parsed.getD []
    areas := j.areas_list.getD []
    country := j.country
    coverage := j.coverage
    rank := j.rank }

/-- The sort key `lambda x: x.get("rank", 99999)`
(`scripts/create_database.py` line 50).  The dict built by
`create_database_entry` always contains the `rank` key (possibly with
value `None`), so the `.get` default `99999` never applies: the key is
the stored optional rank itself. -/
def sortKeyRank (e : DbEntry) : Option Int := e.rank

/-- Python `<` on the sort keys: comparing `None` with an int (or with
`None`) raises `TypeError`. -/
def pyLtKey : Option Int → Option Int → Except String Bool
  | some a, some b => .ok (decide (a < b))
  | _, _ => .error "TypeError: not supported between instances of NoneType and int"

/-- Stable ascending insertion modelling `list.sort(key=..)`: on lists
whose keys all compare, this is the sorted result; like CPython's sort,
it raises exactly when the list has at least two elements and some key
is `None` (the run-detection phase of timsort compares every adjacent
pair, so any `None` key is compared against a neighbour). -/
def insertByRank (x : DbEntry) : List DbEntry → Except String (List DbEntry)
  | [] => .ok [x]
  | y :: t => do
    let b ← pyLtKey (sortKeyRank x) (sortKeyRank y)
    if b then
      return x :: y :: t
    else
      let t2 ← insertByRank x t
      return y :: t2

/-- `database.sort(key=lambda x: x.get("rank", 99999))`
(`scripts/create_database.py` line 50). -/
def sortJournalsByRank (l : List DbEntry) : Except String (List DbEntry) :=
  l.foldlM (fun acc x => insertByRank x acc) []

/-- The record-building and sorting part of `main`
(`scripts/create_database.py` lines 47-50). -/
def create_database_main (js : List CleanJournal) : Except String (List DbEntry) :=
  sortJournalsByRank (js.map create_database_entry)

/-! ## JSON export of the relational store (`scripts/export_db_to_json.py`, C10) -/

/-- One row of the export query (`scripts/export_db_to_json.py`
lines 34-56). -/
structure ExportRow where
  id : Nat
  source_id : Option String
  title : Option String
  publisher : Option String
  country : Option String
  open_access : Bool
  coverage : Option String
  scimago_rank : Option Int
  scope_text : Option String
  sjr : Option Rat
  sjr_quartile : Option String
  h_index : Option Int
  total_docs_2024 : Option Int
  total_docs_3years : Option Int
  citations_per_doc : Option Rat
  total_citations_3years : Option Int
deriving DecidableEq, Repr

/-- `float(row[i]) if row[i] else None` (`scripts/export_db_to_json.py`
lines 95 and 100): SQL NULL and a stored 0 are both falsy, so both map
to `None`; `float` on the numeric value is the identity here. -/
def exportNumField (v : Option Rat) : Option Rat :=
  match v with
  | none => none
  | some q => if q = 0 then none else some q

structure ExportedMetrics where
  sjr : Option Rat
  sjr_quartile : Option String
  h_index : Option Int
  total_docs_2024 : Option Int
  total_docs_3years : Option Int
  citations_per_doc : Option Rat
  total_citations_3years : Option Int
deriving DecidableEq, Repr

/-- The per-journal export object (`scripts/export_db_to_json.py`
lines 84-106). -/
structure ExportedJournal where
  id : Nat
  source_id : Option String
  title : Option String
  publisher : Option String
  country : Option String
  open_access : Bool
  coverage : Option String
  scimago_rank : Option Int
  scope_text : Option String
  metrics : ExportedMetrics
  issns : List String
  categories : List (String × Option String)
  areas : List String
deriving DecidableEq, Repr

/-- The journal-dict construction of `export_database`
(`scripts/export_db_to_json.py` lines 84-106): only `sjr` and
`citations_per_doc` pass through the truthiness guard. -/
def exportJournal (row : ExportRow) (issns : List String)
    (cats : List (String × Option String)) (areas : List String) : ExportedJournal :=
  { id := row.id
    source_id := row.source_id
    title := row.title
    publisher := row.publisher
    country := row.country
    open_access := row.open_access
    coverage := row.coverage
    scimago_rank := row.scimago_rank
    scope_text := row.scope_text
    metrics := ⟨exportNumField row.sjr, row.sjr_quartile, row.h_index, row.total_docs_2024,
      row.total_docs_3years, exportNumField row.citations_per_doc, row.total_citations_3years⟩
    issns := issns
    categories := cats
    areas := areas }

/-! ## Properties of the numeric field parsers (C8, C9) -/

theorem mem_dropWhile_of_not {p : Char → Bool} {c : Char} (hc : p c = false) :
    ∀ {l : List Char}, c ∈ l → c ∈ l.dropWhile p := by
  intro l
  induction l with
  | nil => intro h; cases h
  | cons x t ih =>
    intro h
    rw [List.dropWhile_cons]
    by_cases hx : p x = true
    · rw [if_pos hx]
      rcases List.mem_cons.mp h with h1 | h1
      · rw [h1] at hc
        rw [hc] at hx
        cases hx
      · exact ih h1
    · rw [if_neg hx]
      exact h

theorem mem_pyStrip {c : Char} {l : List Char} (h : c ∈ l) (hc : isPyWs c = false) :
    c ∈ pyStrip l := by
  unfold pyStrip
  rw [List.mem_reverse]
  refine mem_dropWhile_of_not hc ?_
  rw [List.mem_reverse]
  exact mem_dropWhile_of_not hc h

theorem splitSign_cons (x : Char) (r : List Char) :
    splitSign (x :: r) =
      if x == '+' then (false, r) else if x == '-' then (true, r) else (false, x :: r) := rfl

theorem mem_splitSign_snd {c : Char} {t : List Char} (h : c ∈ t)
    (h1 : c ≠ '+') (h2 : c ≠ '-') : c ∈ (splitSign t).2 := by
  cases t with
  | nil => cases h
  | cons x r =>
    rw [splitSign_cons]
    by_cases hx : x == '+'
    · rw [if_pos hx]
      rcases List.mem_cons.mp h with hh | hh
      · exact absurd (hh.trans (by simpa using hx)) h1
      · exact hh
    · rw [if_neg hx]
      by_cases hx2 : x == '-'
      · rw [if_pos hx2]
        rcases List.mem_cons.mp h with hh | hh
        · exact absurd (hh.trans (by simpa using hx2)) h2
        · exact hh
      · rw [if_neg hx2]
        exact h

theorem pyFloat_ok_no_comma {l : List Char} {q : Rat} (h : pyFloat l = .ok q) : ',' ∉ l := by
  intro hm
  have hm1 : ',' ∈ pyStrip l := mem_pyStrip hm (by decide)
  have hm2 : ',' ∈ (splitSign (pyStrip l)).2 :=
    mem_splitSign_snd hm1 (by decide) (by decide)
  have hdecomp : (splitSign (pyStrip l)).2.takeWhile Char.isDigit ++
      (splitSign (pyStrip l)).2.dropWhile Char.isDigit = (splitSign (pyStrip l)).2 :=
    List.takeWhile_append_dropWhile _ _
  rw [← hdecomp] at hm2
  rcases List.mem_append.mp hm2 with hmt | hmd
  · have := List.mem_takeWhile_imp hmt
    exact absurd this (by decide)
  · unfold pyFloat at h
    rcases hrest : (splitSign (pyStrip l)).2.dropWhile Char.isDigit with _ | ⟨c, fr⟩
    · rw [hrest] at hmd
      cases hmd
    · rw [hrest] at h hmd
      dsimp only at h
      by_cases hc : c == '.'
      · rw [if_pos hc] at h
        by_cases hcond : (fr.all Char.isDigit &&
            !(((splitSign (pyStrip l)).2.takeWhile Char.isDigit).isEmpty && fr.isEmpty)) = true
        · rw [if_pos hcond] at h
          have hfr : fr.all Char.isDigit = true := ((Bool.and_eq_true _ _).mp hcond).1
          rcases List.mem_cons.mp hmd with hh | hh
          · have : c = '.' := by simpa using hc
            rw [this] at hh
            cases hh
          · have := List.all_eq_true.mp hfr _ hh
            exact absurd this (by decide)
        · rw [if_neg hcond] at h
          cases h
      · rw [if_neg hc] at h
        cases h

theorem dropWhile_eq_self_of_none {p : Char → Bool} {l : List Char}
    (h : ∀ c ∈ l, p c = false) : l.dropWhile p = l := by
  cases l with
  | nil => rfl
  | cons x t =>
    rw [List.dropWhile_cons, if_neg]
    rw [h x (List.mem_cons_self _ _)]
    simp

theorem pyStrip_of_no_ws {l : List Char} (h : ∀ c ∈ l, isPyWs c = false) :
    pyStrip l = l := by
  unfold pyStrip
  rw [dropWhile_eq_self_of_none h,
    dropWhile_eq_self_of_none (fun c hc => h c (List.mem_reverse.mp hc)),
    List.reverse_reverse]

theorem isPyWs_eq_false_of_isDigit {c : Char} (h : c.isDigit = true) : isPyWs c = false := by
  unfold isPyWs
  simp only [Bool.or_eq_false_iff, beq_eq_false_iff_ne]
  refine ⟨⟨⟨⟨⟨?_, ?_⟩, ?_⟩, ?_⟩, ?_⟩, ?_⟩ <;>
    · rintro rfl
      exact absurd h (by decide)

theorem takeWhile_append_stop {p : Char → Bool} {b : Char} (hb : p b = false) :
    ∀ (a rest : List Char), (∀ c ∈ a, p c = true) →
    (a ++ b :: rest).takeWhile p = a ∧ (a ++ b :: rest).dropWhile p = b :: rest := by
  intro a
  induction a with
  | nil =>
    intro rest _
    constructor
    · rw [List.nil_append, List.takeWhile_cons, if_neg (by rw [hb]; simp)]
    · rw [List.nil_append, List.dropWhile_cons, if_neg (by rw [hb]; simp)]
  | cons x a2 ih =>
    intro rest ha
    have hx : p x = true := ha x (List.mem_cons_self _ _)
    have ih2 := ih rest (fun c hc => ha c (List.mem_cons_of_mem _ hc))
    constructor
    · rw [List.cons_append, List.takeWhile_cons, if_pos hx, ih2.1]
    · rw [List.cons_append, List.dropWhile_cons, if_pos hx, ih2.2]

theorem splitSign_of_digit_head {d : Char} {r : List Char} (hd : d.isDigit = true) :
    splitSign (d :: r) = (false, d :: r) := by
  rw [splitSign_cons]
  rw [if_neg ?_, if_neg ?_]
  · intro hh
    rw [show d = '-' by simpa using hh] at hd
    exact absurd hd (by decide)
  · intro hh
    rw [show d = '+' by simpa using hh] at hd
    exact absurd hd (by decide)

theorem pyFloat_dot_decimal (ds fs : List Char) (hne : ds ≠ [])
    (h1 : ds.all Char.isDigit = true) (h2 : fs.all Char.isDigit = true) :
    pyFloat (ds ++ '.' :: fs) =
      .ok ((digitsVal ds : Rat) + (digitsVal fs : Rat) / ((10 : Rat) ^ fs.length)) := by
  have hds : ∀ c ∈ ds, Char.isDigit c = true := fun c hc => List.all_eq_true.mp h1 _ hc
  have hfs : ∀ c ∈ fs, Char.isDigit c = true := fun c hc => List.all_eq_true.mp h2 _ hc
  have hws : ∀ c ∈ ds ++ '.' :: fs, isPyWs c = false := by
    intro c hc
    rcases List.mem_append.mp hc with hh | hh
    · exact isPyWs_eq_false_of_isDigit (hds c hh)
    · rcases List.mem_cons.mp hh with hh2 | hh2
      · rw [hh2]
        decide
      · exact isPyWs_eq_false_of_isDigit (hfs c hh2)
  have hstrip : pyStrip (ds ++ '.' :: fs) = ds ++ '.' :: fs := pyStrip_of_no_ws hws
  rcases hdsc : ds with _ | ⟨d, ds2⟩
  · exact absurd hdsc hne
  rw [← hdsc]
  have hsign : splitSign (pyStrip (ds ++ '.' :: fs)) = (false, ds ++ '.' :: fs) := by
    rw [hstrip, hdsc, List.cons_append,
      splitSign_of_digit_head (hds d (by rw [hdsc]; exact List.mem_cons_self _ _)),
      ← List.cons_append, ← hdsc]
  have hsplit := takeWhile_append_stop (p := Char.isDigit) (b := '.') (by decide) ds fs hds
  unfold pyFloat
  rw [hsign]
  show (match (ds ++ '.' :: fs).dropWhile Char.isDigit with
    | [] => _
    | c :: fr => _) = _
  rw [hsplit.2]
  dsimp only
  rw [if_pos (show ('.' == '.') = true from rfl)]
  rw [hsplit.1]
  have hcond : (fs.all Char.isDigit && !(ds.isEmpty && fs.isEmpty)) = true := by
    rw [h2]
    rw [show ds.isEmpty = false from by rw [hdsc]; rfl]
    rfl
  rw [if_pos hcond]
  rw [if_neg (by simp : ¬(false = true))]

/-- Decidable equality for `Except` results. -/
instance [DecidableEq ε] [DecidableEq α] : DecidableEq (Except ε α) := fun x y =>
  match x, y with
  | .error a, .error b =>
    if h : a = b then .isTrue (congrArg Except.error h)
    else .isFalse (fun hh => h (Except.error.inj hh))
  | .ok a, .ok b =>
    if h : a = b then .isTrue (congrArg Except.ok h)
    else .isFalse (fun hh => h (Except.ok.inj hh))
  | .error _, .ok _ => .isFalse (fun hh => Except.noConfusion hh)
  | .ok _, .error _ => .isFalse (fun hh => Except.noConfusion hh)

/-! ## The claims -/

/-- A 59-character filler text (no markers, single spaces). -/
def exA : String := "aaaa aaaa aaaa aaaa aaaa aaaa aaaa aaaa aaaa aaaa aaaa aaaa"

/-- A second 59-character filler text. -/
def exB : String := "bbbb bbbb bbbb bbbb bbbb bbbb bbbb bbbb bbbb bbbb bbbb bbbb"

/-- An input on which the marker priority order is observable: the
`"Scope"` marker occurs first and yields usable content, and a later
`"Aims and Scope"` marker also yields usable (different) content. -/
def ex2 : String := "Scope " ++ exA ++ ". Aims and Scope " ++ exB

/-- C2, counterexample: on `ex2` the claimed priority order
(`"Aims and Scope"` first) would accept the text after
`"Aims and Scope"`, but the extractor returns the text after the first
`"Scope"` occurrence — the source order is
`['Scope', 'Aims and Scope', 'About']`. -/
theorem scope_marker_order_counterexample :
    claimOrderMarkerPhase ex2.toList = some exB.toList ∧
    extract_scope_description ex2 "Journal" = exA ++ ". Aims and Scope " ++ exB ∧
    exA ++ ". Aims and Scope " ++ exB ≠ exB := by
  refine ⟨by decide, by decide, by decide⟩

/-- C2, amended: the extractor tries the markers in the source order
`"Scope"`, `"Aims and Scope"`, `"About"`; the accepted result comes from
the first marker in that order whose attempt yields usable (longer than
50 characters after cleaning) content, regardless of where the markers
occur in the document. -/
theorem scope_marker_priority (raw title : String) :
    (∀ t, markerAttempt raw.toList "Scope" = some t →
      extract_scope_description raw title = String.mk t) ∧
    (markerAttempt raw.toList "Scope" = none →
      ∀ t, markerAttempt raw.toList "Aims and Scope" = some t →
      extract_scope_description raw title = String.mk t) ∧
    (markerAttempt raw.toList "Scope" = none →
      markerAttempt raw.toList "Aims and Scope" = none →
      ∀ t, markerAttempt raw.toList "About" = some t →
      extract_scope_description raw title = String.mk t) := by
  by_cases hraw : raw = ""
  · subst hraw
    refine ⟨?_, ?_, ?_⟩
    · intro t h
      rw [show markerAttempt "".toList "Scope" = none from by decide] at h
      cases h
    · intro _ t h
      rw [show markerAttempt "".toList "Aims and Scope" = none from by decide] at h
      cases h
    · intro _ _ t h
      rw [show markerAttempt "".toList "About" = none from by decide] at h
      cases h
  · have hopen : ∀ t, firstSome (scope_markers.map (markerAttempt raw.toList)) = some t →
        extract_scope_description raw title = String.mk t := by
      intro t h
      unfold extract_scope_description
      rw [if_neg hraw]
      dsimp only
      rw [h]
    refine ⟨?_, ?_, ?_⟩
    · intro t h
      refine hopen t ?_
      rw [show scope_markers.map (markerAttempt raw.toList) =
        [markerAttempt raw.toList "Scope", markerAttempt raw.toList "Aims and Scope",
         markerAttempt raw.toList "About"] from rfl, h]
      rfl
    · intro h0 t h
      refine hopen t ?_
      rw [show scope_markers.map (markerAttempt raw.toList) =
        [markerAttempt raw.toList "Scope", markerAttempt raw.toList "Aims and Scope",
         markerAttempt raw.toList "About"] from rfl, h0, h]
      rfl
    · intro h0 h1 t h
      refine hopen t ?_
      rw [show scope_markers.map (markerAttempt raw.toList) =
        [markerAttempt raw.toList "Scope", markerAttempt raw.toList "Aims and Scope",
         markerAttempt raw.toList "About"] from rfl, h0, h1, h]
      rfl

/-- An input whose `"Scope"` marker yields usable content, for the C2
witness. -/
def c2w : String := "Scope " ++ exA

theorem scope_marker_priority_witness :
    markerAttempt c2w.toList "Scope" = some exA.toList ∧
    extract_scope_description c2w "t" = String.mk exA.toList :=
  ⟨by decide, (scope_marker_priority c2w "t").1 exA.toList (by decide)⟩

/-- The exact raw text of the spec's scope-extraction example. -/
def c3raw : String := "...Scope This journal publishes research on X. Join the conversation..."

/-- C3, counterexample: on the spec's example input the cleaned marker
text `"This journal publishes research on X."` is only 37 characters,
which does not exceed the 50-character threshold, so the marker attempt
is rejected and the sentence fallback returns the whole first sentence
`"...Scope This journal publishes research on X."` — not the claimed
string. -/
theorem scope_example_counterexample :
    extract_scope_description c3raw "Journal of X" =
      "...Scope This journal publishes research on X." ∧
    ("...Scope This journal publishes research on X." : String) ≠
      "This journal publishes research on X." := by
  refine ⟨by decide, by decide⟩

/-- C3, amended: a marker result is accepted only when its cleaned
length exceeds 50 characters; on the spec's example input the cleaned
marker text is too short, so the extractor falls through to the
sentence filter and returns
`"...Scope This journal publishes research on X."`. -/
theorem scope_threshold_and_fallback :
    (∀ (raw : List Char) (m : String) (t : List Char),
      markerAttempt raw m = some t → 50 < t.length) ∧
    extract_scope_description c3raw "Journal of X" =
      "...Scope This journal publishes research on X." := by
  constructor
  · intro raw m t h
    unfold markerAttempt at h
    rcases hfi : firstIdx m.toList raw with _ | i
    · rw [hfi] at h
      cases h
    · rw [hfi] at h
      dsimp only at h
      by_cases hlen : 50 <
          (pyStrip (collapseWs ((end_markers.map String.toList).foldl truncAtMarker
            (pyStrip (raw.drop (i + m.length)))))).length
      · rw [if_pos hlen] at h
        rw [← Option.some.inj h]
        exact hlen
      · rw [if_neg hlen] at h
        cases h
  · decide

theorem scope_threshold_witness :
    markerAttempt ("Aims and Scope " ++ exB).toList "Aims and Scope" = some exB.toList ∧
    50 < exB.toList.length :=
  ⟨by decide, scope_threshold_and_fallback.1 ("Aims and Scope " ++ exB).toList
    "Aims and Scope" exB.toList (by decide)⟩

/-- C6, counterexample: on the entry `"Ethics (Q1) Board (Q2)"` — a name
that legitimately contains a parenthesised group — the unanchored regex
of `clean_journal_data` matches the FIRST `(Qd)` occurrence, returning
`("Ethics", Q1)`, while the anchored parser of `import_asm_journals`
takes only the trailing one, returning `("Ethics (Q1) Board", Q2)`: the
two parsers disagree and the clean-side parser does not anchor to the
trailing quartile. -/
theorem clean_category_not_anchored :
    clean_parse_categories "Ethics (Q1) Board (Q2)" = [("Ethics", some "Q1")] ∧
    parse_categories "Ethics (Q1) Board (Q2)" = [("Ethics (Q1) Board", some "Q2")] ∧
    ([(("Ethics" : String), some "Q1")] ≠ [(("Ethics (Q1) Board" : String), some "Q2")]) := by
  refine ⟨by decide, by decide, by decide⟩

/-- C6, amended: the `parse_categories` entry parser of
`import_asm_journals.py` anchors the quartile match to the trailing
`(Qn)` — for every nonempty name and quartile digit, the name with a
trailing `(Qd)` parses to the name and that quartile — and behaves as
the spec's examples require; but the `clean_journal_data` parser of
`clean_scope_data.py` is unanchored and takes the first interior `(Qd)`
instead. -/
theorem category_parser_anchoring :
    (∀ (name : List Char) (d : Char), name ≠ [] →
      (d = '1' ∨ d = '2' ∨ d = '3' ∨ d = '4') →
      matchTrailingQuartile (name ++ ['(', 'Q', d, ')']) = some (name, ['Q', d])) ∧
    parse_categories "Applied Mathematics (Q1)" = [("Applied Mathematics", some "Q1")] ∧
    parse_categories "Ethics" = [("Ethics", none)] ∧
    cleanCategoryEntry ("Ethics (Q1) Board (Q2)" : String).toList =
      some ("Ethics", some "Q1") := by
  refine ⟨?_, by decide, by decide, by decide⟩
  intro name d hname hd
  have hpos : 0 < name.length := List.length_pos.mpr hname
  unfold matchTrailingQuartile
  dsimp only
  rw [show (name ++ ['(', 'Q', d, ')']).length = name.length + 4 from by simp,
    Nat.add_sub_cancel, List.drop_left, List.take_left,
    if_pos (show name.length + 4 ≥ 5 by omega)]
  show (if (d == '1' || d == '2' || d == '3' || d == '4') = true
    then some (name, ['Q', d]) else none) = some (name, ['Q', d])
  have hdb : (d == '1' || d == '2' || d == '3' || d == '4') = true := by
    rcases hd with rfl | rfl | rfl | rfl <;> decide
  rw [if_pos hdb]

theorem category_parser_anchoring_witness :
    ("Applied Mathematics " : String).toList ≠ [] ∧
    matchTrailingQuartile (("Applied Mathematics " : String).toList ++ ['(', 'Q', '1', ')']) =
      some (("Applied Mathematics " : String).toList, ['Q', '1']) :=
  ⟨by decide, category_parser_anchoring.1 ("Applied Mathematics " : String).toList '1'
    (by decide) (Or.inl rfl)⟩

/-- A store holding one committed ASM journal (`source_id = "asm1"`,
id 1) whose metrics row has a known `sjr` of 5/2. -/
def c1Store : Store :=
  { emptyStore with
    journals := [⟨1, "asm1", some "Journal A", some asmPublisher, none, false, none, none⟩]
    journal_metrics := [(1, ⟨some ((5 : Rat) / 2), none, none, none, none, none, none⟩)]
    nextJournalId := 2 }

/-- A re-import record for the same journal whose incoming `sjr` (and
every other metric) is null. -/
def c1NullRec : AsmJournal :=
  ⟨"asm1", some "Journal A", none, false, none, none, none,
   none, none, none, none, none, none, none, "", "", ""⟩

/-- C1, counterexample: the ASM importer's metrics upsert
(`import_asm_journals.py` lines 148-169, `DO UPDATE SET sjr =
EXCLUDED.sjr, ..`) is a plain overwrite, not fill-forward — re-importing
the journal with `sjr = null` blanks the previously stored `sjr = 5/2`. -/
theorem asm_metrics_overwrite_counterexample :
    (lookupKV c1Store.journal_metrics 1).map MetricsRow.sjr = some (some ((5 : Rat) / 2)) ∧
    (lookupKV (syncAsm c1Store c1NullRec).journal_metrics 1).map MetricsRow.sjr = some none ∧
    (some (none : Option Rat)) ≠ some (some ((5 : Rat) / 2)) := by
  refine ⟨rfl, by decide, by decide⟩

/-- The stored metrics row of the C1 witness table. -/
def c1old : MetricsRow := ⟨none, some "Q2", none, none, none, none, none⟩

/-- The C1 witness metrics table: journal 7 with a stored row. -/
def c1bt : List (Nat × MetricsRow) := [(7, c1old)]

/-- The C1 witness incoming BMJ payload: null `sjr`, non-null quartile
and h-index. -/
def c1bm : BmjMetrics := ⟨none, some "Q1", some 10⟩

theorem metrics_upsert_policies_witness :
    lookupKV c1bt 7 = some c1old ∧
    ((∃ new, lookupKV (bmjUpsertMetrics c1bt 7 c1bm) 7 = some new ∧
      (c1bm.sjr = none → new.sjr = c1old.sjr) ∧
      (∀ v, c1bm.sjr = some v → new.sjr = some v) ∧
      (c1bm.sjr_quartile = none → new.sjr_quartile = c1old.sjr_quartile) ∧
      (∀ v, c1bm.sjr_quartile = some v → new.sjr_quartile = some v) ∧
      (c1bm.h_index = none → new.h_index = c1old.h_index) ∧
      (∀ v, c1bm.h_index = some v → new.h_index = some v)) ∧
    (∀ row : MetricsRow, lookupKV (upsertKV c1bt 7 row) 7 = some row)) :=
  ⟨rfl, metrics_upsert_policies c1bt 7 c1bm c1old rfl⟩

/-- A valid ASM record for the C4 witness. -/
def c4rec : AsmJournal :=
  ⟨"asmX", some "Journal X", none, false, none, none, none,
   none, some "Q1", none, none, none, none, none, "", "", ""⟩

theorem asm_per_record_atomicity_witness :
    ¬(c4rec.source_id = "") ∧
    asmProcess (Conn.clean emptyStore, []) c4rec = (Conn.clean (syncAsm emptyStore c4rec), []) :=
  ⟨by decide,
   (asm_per_record_atomicity emptyStore c4rec [] (by decide)).2 (by decide) (by decide)⟩

/-- A good JSON journal record (id 1, `source_id` "S1"). -/
def jg1 : JsonJournal :=
  ⟨1, "S1", some "Journal One", some "P", none, false, none, none, none,
   none, none, none, none, none, none, none, [], [], []⟩

/-- A bad JSON journal record: a second `id` under the same `source_id`
"S1" violates the unique source_id constraint. -/
def jb2 : JsonJournal :=
  ⟨2, "S1", some "Journal Two", some "P", none, false, none, none, none,
   none, none, none, none, none, none, none, [], [], []⟩

/-- A good JSON journal record after the bad one (id 3, "S3"). -/
def jg3 : JsonJournal :=
  ⟨3, "S3", some "Journal Three", some "P", none, false, none, none, none,
   none, none, none, none, none, none, none, [], [], []⟩

/-- C4, counterexample: the JSON restore importer
(`import_from_json.py` lines 73-171) is NOT per-record atomic — the
whole journal loop runs in one transaction and the `except` handler
continues without a rollback, so one bad middle record aborts the
transaction, the later good record fails with
`InFailedSqlTransaction`, and the single final commit of the aborted
transaction rolls everything back: even the good records are lost,
although importing the first record alone succeeds. -/
theorem json_import_batch_lost :
    (import_from_json_journals emptyStore [jg1, jb2, jg3]).1.journals = [] ∧
    (import_from_json_journals emptyStore [jg1, jb2, jg3]).2 =
      ["UniqueViolation: journals_source_id_key",
       "InFailedSqlTransaction: commands ignored until end of transaction block"] ∧
    (import_from_json_journals emptyStore [jg1]).1.journals = [jsonRow jg1] ∧
    ([] : List JournalRow) ≠ [jsonRow jg1] := by
  refine ⟨by decide, by decide, by decide, by decide⟩

/-- A full canonical ASM record for the C5 witness. -/
def c5rec : AsmJournal :=
  ⟨"asm9", some "Journal Nine", some "United States", true, some "2000-2024",
   some "5", some "A scope text", some "1.5", some "Q1", some "42", some "100",
   some "300", some "2.5", some "900", "1234-5678, 8765-4321",
   "Microbiology (Q1); Virology (Q2)", "Immunology; Microbiology"⟩

theorem syncAsm_idempotent_full_witness :
    WFStore emptyStore ∧
    (syncAsm (syncAsm emptyStore c5rec) c5rec = syncAsm emptyStore c5rec ∧
     ((syncAsm emptyStore c5rec).journals.map JournalRow.source_id).count c5rec.source_id = 1 ∧
     (∃ j, journalIdOf (syncAsm emptyStore c5rec) c5rec.source_id = some j ∧
       ((syncAsm emptyStore c5rec).journal_scopes.map Prod.fst).count j ≤ 1 ∧
       ((syncAsm emptyStore c5rec).journal_metrics.map Prod.fst).count j = 1) ∧
     ((syncAsm emptyStore c5rec).journal_categories.map Prod.fst).Nodup ∧
     (syncAsm emptyStore c5rec).journal_areas.Nodup ∧
     (syncAsm emptyStore c5rec).journal_issn.Nodup) :=
  have hwf : WFStore emptyStore :=
    ⟨by simp [emptyStore], by simp [emptyStore], by simp [emptyStore],
     by simp [emptyStore], by simp [emptyStore], by simp [emptyStore]⟩
  ⟨hwf, syncAsm_idempotent_full emptyStore c5rec hwf⟩

/-- A cleaned journal record with no rank. -/
def c7NoRank : CleanJournal :=
  ⟨some "ws1", some "Alpha Journal", none, false, none, none, none, none,
   none, none, none, none, none, none, none, none, none⟩

/-- A cleaned journal record with rank 1. -/
def c7Rank1 : CleanJournal :=
  ⟨some "ws2", some "Beta Journal", none, false, none, none, none, none,
   none, none, none, none, none, none, none, none, some 1⟩

/-- C7, code bug: `create_database_entry` always materialises the
`"rank"` key (with value `None` when the source record has no rank), so
the sort key `x.get("rank", 99999)` never falls back to the `99999`
sentinel; on a collection with one unranked and one ranked record the
sort compares `None` against an `int` and raises `TypeError` instead of
producing a sorted array with the unranked record last. -/
theorem create_database_rank_sort_raises :
    sortKeyRank (create_database_entry c7NoRank) = none ∧
    create_database_main [c7NoRank, c7Rank1] =
      .error "TypeError: not supported between instances of NoneType and int" := by
  refine ⟨rfl, by decide⟩

/-- C8, counterexample: `safe_float` rejects `','` as a fractional
separator — `float("2,5")` raises `ValueError` in CPython, so
`safe_float "2,5"` is `None`, not the parsed number 5/2 that the same
value with a `'.'` separator yields. -/
theorem safe_float_comma_counterexample :
    safe_float "2,5" = none ∧
    safe_float "2.5" = some ((2 : Rat) + (5 : Rat) / (10 : Rat) ^ (1 : Nat)) ∧
    (2 : Rat) + (5 : Rat) / (10 : Rat) ^ (1 : Nat) = 5 / 2 ∧
    (none : Option Rat) ≠ some ((2 : Rat) + (5 : Rat) / (10 : Rat) ^ (1 : Nat)) := by
  refine ⟨by decide, rfl, by norm_num, by decide⟩

/-- C8, amended: `safe_float` is total and never throws — it returns
`None` on the empty string, on every string containing a `','`
(CPython's `float` raises `ValueError` on a `','` separator, caught by
the `except`), and on any parse failure — and returns the parsed number
for decimal strings with the `'.'` separator. -/
theorem safe_float_behavior :
    safe_float "" = none ∧
    (∀ s : String, ',' ∈ s.toList → safe_float s = none) ∧
    (∀ ds fs : List Char, ds ≠ [] → ds.all Char.isDigit = true → fs.all Char.isDigit = true →
      safe_float (String.mk (ds ++ '.' :: fs)) =
        some ((digitsVal ds : Rat) + (digitsVal fs : Rat) / ((10 : Rat) ^ fs.length))) := by
  refine ⟨rfl, ?_, ?_⟩
  · intro s hm
    by_cases hs : s = ""
    · subst hs
      simp at hm
    · unfold safe_float
      rw [if_neg hs]
      rcases hp : pyFloat s.toList with e | q
      · rfl
      · exact absurd hm (pyFloat_ok_no_comma hp)
  · intro ds fs h1 h2 h3
    have hne2 : String.mk (ds ++ '.' :: fs) ≠ "" := by
      intro hh
      have hlen := congrArg String.length hh
      simp [String.length] at hlen
    unfold safe_float
    rw [if_neg hne2]
    rw [show (String.mk (ds ++ '.' :: fs)).toList = ds ++ '.' :: fs from rfl,
      pyFloat_dot_decimal ds fs h1 h2 h3]

theorem safe_float_behavior_witness :
    (',' ∈ ("9,9" : String).toList ∧ safe_float "9,9" = none) ∧
    safe_float (String.mk (['7'] ++ '.' :: ['2', '5'])) =
      some ((digitsVal ['7'] : Rat) +
        (digitsVal ['2', '5'] : Rat) / ((10 : Rat) ^ (['2', '5'] : List Char).length)) :=
  ⟨⟨by decide, safe_float_behavior.2.1 "9,9" (by decide)⟩,
   safe_float_behavior.2.2 ['7'] ['2', '5'] (by decide) (by decide) (by decide)⟩

/-- C9, counterexample: the inline CSV integer conversions of
`scrape_bmj_scopes.py` do not map an empty cell to null — the count
fields coalesce it to 0 (`int(row.get('H index', 0) or 0)`), and the
rank field (`int(row.get('Rank', 0))`, no `or 0`) raises `ValueError`
on an empty or non-numeric cell instead of returning null. -/
theorem csv_int_parser_counterexample :
    csvIntOr0 "" = .ok 0 ∧
    csvRankField "" = .error "ValueError: invalid literal for int() with base 10" ∧
    csvRankField "N/A" = .error "ValueError: invalid literal for int() with base 10" ∧
    safe_int "" = none ∧
    (Except.ok (0 : Int) : Except String Int) ≠ .error "ValueError: invalid literal for int() with base 10" := by
  refine ⟨by decide, by decide, by decide, by decide, by decide⟩

/-- C9, amended: `safe_int` of `import_asm_journals.py` maps the empty
string to `None`, never to 0, maps `"0"` to 0 (keeping 0 and absent
distinct), and returns `None` on every invalid input; but the inline
CSV conversions of `scrape_bmj_scopes.py` coalesce an empty count cell
to 0 and raise on an invalid rank cell. -/
theorem int_parser_behavior :
    safe_int "" = none ∧
    safe_int "0" = some 0 ∧
    safe_int "abc" = none ∧
    (∀ (l : List Char) (e : String), pyInt l = .error e → safe_int (String.mk l) = none) ∧
    csvIntOr0 "" = .ok 0 ∧
    csvRankField "" = .error "ValueError: invalid literal for int() with base 10" := by
  refine ⟨rfl, by decide, by decide, ?_, by decide, by decide⟩
  intro l e h
  unfold safe_int
  by_cases hl : String.mk l = ""
  · rw [if_pos hl]
  · rw [if_neg hl]
    rw [show (String.mk l).toList = l from rfl, h]

theorem int_parser_behavior_witness :
    pyInt ("N/A" : String).toList = .error "ValueError: invalid literal for int() with base 10" ∧
    safe_int (String.mk ("N/A" : String).toList) = none :=
  ⟨by decide, int_parser_behavior.2.2.2.1 ("N/A" : String).toList
    "ValueError: invalid literal for int() with base 10" (by decide)⟩

/-- C10: the export's truthiness guard (`float(row[i]) if row[i] else
None`, applied to `sjr` and `citations_per_doc`) conflates a stored 0
with SQL NULL — for every row, the exported journal built from a stored
0 in either field is equal to the one built from a NULL there, so a
legitimate zero cannot be distinguished from a never-known metric. -/
theorem export_zero_indistinguishable (row : ExportRow) (issns : List String)
    (cats : List (String × Option String)) (areas : List String) :
    exportJournal { row with sjr := some 0 } issns cats areas =
      exportJournal { row with sjr := none } issns cats areas ∧
    exportJournal { row with citations_per_doc := some 0 } issns cats areas =
      exportJournal { row with citations_per_doc := none } issns cats areas ∧
    (exportJournal row issns cats areas).metrics.sjr = exportNumField row.sjr := by
  refine ⟨?_, ?_, rfl⟩
  · unfold exportJournal
    dsimp only [exportNumField]
    rw [if_pos (rfl : (0 : Rat) = 0)]
  · unfold exportJournal
    dsimp only [exportNumField]
    rw [if_pos (rfl : (0 : Rat) = 0)]
